import Mathlib

/-!
Verification of the USU-Peduli coordination system (Naminiges/USU-Peduli).

This development gives a shallow embedding, in Lean 4, of the core logic of
`app_postgres.py` and `pg_data.py`: the health-assessment scorer, the
logistics status-transition endpoint and its audit-logged storage layer,
the spreadsheet caches, the ray-casting point-in-polygon test, the region
classifier, the nearest-facility selection of the check-in handler, and
the haversine distance helper.  Python floats are modelled with exact
rationals (`ℚ`) where the code performs ordinary arithmetic, and with an
explicit finite / infinite / NaN value type where IEEE special values
matter (the haversine helper).  Fallible Python code (try/except) is
modelled with `Option` / `Except`.
-/

set_option maxRecDepth 8000

namespace USUPeduli

/-! ## Assessment scoring (`app_postgres.py`, section 4) -/

/-- Embeds `_ask_int_1_5` (app_postgres.py lines 1595-1604).
`none` models a raw value on which `int(val)` raises (the `except` branch);
`some v` models a raw value that parses to the integer `v`. -/
def ask_int_1_5 (val : Option Int) (default : Int) : Int :=
  match val with
  | none => default
  | some v0 =>
    let v1 : Int := if v0 < 1 then 1 else v0
    let v2 : Int := if v1 > 5 then 5 else v1
    v2

/-- The per-question weight table of an assessment kind (five questions). -/
structure Weights where
  p1 : ℚ
  p2 : ℚ
  p3 : ℚ
  p4 : ℚ
  p5 : ℚ

/-- The weight dict of `submit_asesmen_kesehatan` (app_postgres.py line 1665):
`{"p1": 1.0, "p2": 1.0, "p3": 1.0, "p4": 1.5, "p5": 1.5}`. -/
def kesehatan_weights : Weights := ⟨1, 1, 1, 3/2, 3/2⟩

/-- A normalized five-question answer vector (the `answers` dict). -/
structure Answers where
  p1 : Int
  p2 : Int
  p3 : Int
  p4 : Int
  p5 : Int

/-- The weighted raw score `skor` (app_postgres.py lines 1668-1674). -/
def skor_of (a : Answers) (w : Weights) : ℚ :=
  (a.p1 : ℚ) * w.p1 + (a.p2 : ℚ) * w.p2 + (a.p3 : ℚ) * w.p3
    + (a.p4 : ℚ) * w.p4 + (a.p5 : ℚ) * w.p5

/-- The maximal score `max_skor` (app_postgres.py lines 1676-1682). -/
def max_skor_of (w : Weights) : ℚ :=
  5 * w.p1 + 5 * w.p2 + 5 * w.p3 + 5 * w.p4 + 5 * w.p5

/-- `skor_100 = (skor / max_skor) * 100.0` (app_postgres.py line 1683). -/
def skor_100 (a : Answers) (w : Weights) : ℚ :=
  skor_of a w / max_skor_of w * 100

/-- The tier chain of app_postgres.py lines 1685-1690:
`>= 80` Kritis, `>= 60` Waspada, otherwise Aman. -/
def status_of_skor (s : ℚ) : String :=
  if s ≥ 80 then "Kritis" else if s ≥ 60 then "Waspada" else "Aman"

/-- The scoring portion of `submit_asesmen_kesehatan`
(app_postgres.py lines 1659-1690): normalize the five raw form answers,
compute `skor_100` with the fixed weight table, classify the tier. -/
def submit_asesmen_kesehatan_score (r1 r2 r3 r4 r5 : Option Int) : ℚ × String :=
  let a : Answers :=
    ⟨ask_int_1_5 r1 1, ask_int_1_5 r2 1, ask_int_1_5 r3 1,
      ask_int_1_5 r4 1, ask_int_1_5 r5 1⟩
  let s := skor_100 a kesehatan_weights
  (s, status_of_skor s)

/-! ## Helper lemmas for scoring -/

theorem ask_int_1_5_mem (v : Option Int) :
    1 ≤ ask_int_1_5 v 1 ∧ ask_int_1_5 v 1 ≤ 5 := by
  match v with
  | none => exact ⟨le_refl 1, by decide⟩
  | some v0 =>
    simp only [ask_int_1_5]
    split_ifs <;> omega

theorem status_of_skor_eq_kritis (s : ℚ) :
    status_of_skor s = "Kritis" ↔ 80 ≤ s := by
  simp only [status_of_skor]
  split_ifs with h1 h2 <;> simp_all <;> try linarith

theorem status_of_skor_eq_waspada (s : ℚ) :
    status_of_skor s = "Waspada" ↔ 60 ≤ s ∧ s < 80 := by
  simp only [status_of_skor]
  split_ifs with h1 h2 <;> simp_all <;> try linarith

theorem status_of_skor_eq_aman (s : ℚ) :
    status_of_skor s = "Aman" ↔ s < 60 := by
  simp only [status_of_skor]
  split_ifs with h1 h2 <;> simp_all <;> try linarith

/-! ## Claim theorems for scoring -/

/-- Claim C1: for every five-answer submission the computed score is
`100 * (Σ answer_i * weight_i) / (Σ 5 * weight_i)` with the fixed weight
table `{1, 1, 1, 1.5, 1.5}`; the tier is "Kritis" exactly when the score
is at least 80, "Waspada" exactly when it is in `[60, 80)`, and "Aman"
exactly when it is below 60; a score of exactly 80 classifies as
"Kritis", exactly 60 as "Waspada", 59.99 as "Aman"; and the all-fives
answer vector scores 100 with tier "Kritis". -/
theorem C1_assessment_scoring :
    (∀ r1 r2 r3 r4 r5 : Option Int,
      submit_asesmen_kesehatan_score r1 r2 r3 r4 r5 =
        (100 * ((ask_int_1_5 r1 1 : ℚ) * 1 + (ask_int_1_5 r2 1 : ℚ) * 1
            + (ask_int_1_5 r3 1 : ℚ) * 1 + (ask_int_1_5 r4 1 : ℚ) * (3/2)
            + (ask_int_1_5 r5 1 : ℚ) * (3/2))
          / (5 * 1 + 5 * 1 + 5 * 1 + 5 * (3/2) + 5 * (3/2)),
         status_of_skor (skor_100
           ⟨ask_int_1_5 r1 1, ask_int_1_5 r2 1, ask_int_1_5 r3 1,
             ask_int_1_5 r4 1, ask_int_1_5 r5 1⟩ kesehatan_weights))) ∧
    (∀ s : ℚ,
      (status_of_skor s = "Kritis" ↔ 80 ≤ s) ∧
      (status_of_skor s = "Waspada" ↔ 60 ≤ s ∧ s < 80) ∧
      (status_of_skor s = "Aman" ↔ s < 60)) ∧
    status_of_skor 80 = "Kritis" ∧
    status_of_skor 60 = "Waspada" ∧
    status_of_skor (5999/100) = "Aman" ∧
    skor_100 ⟨5, 5, 5, 5, 5⟩ kesehatan_weights = 100 ∧
    status_of_skor (skor_100 ⟨5, 5, 5, 5, 5⟩ kesehatan_weights) = "Kritis" := by
  refine ⟨?_, ?_, ?_, ?_, ?_, ?_, ?_⟩
  · intro r1 r2 r3 r4 r5
    simp only [submit_asesmen_kesehatan_score, skor_100, skor_of, max_skor_of,
      kesehatan_weights]
    refine Prod.ext ?_ rfl
    ring
  · intro s
    exact ⟨status_of_skor_eq_kritis s, status_of_skor_eq_waspada s,
      status_of_skor_eq_aman s⟩
  · norm_num [status_of_skor]
  · norm_num [status_of_skor]
  · norm_num [status_of_skor]
  · norm_num [skor_100, skor_of, max_skor_of, kesehatan_weights]
  · norm_num [skor_100, skor_of, max_skor_of, kesehatan_weights, status_of_skor]

/-- Claim C3 counterexample: the parsable raw answer 7 lies outside `[1,5]`
but the normalizer returns 5 (the clamped value), not the default 1 the
claim asserts. -/
theorem C3_counterexample :
    ask_int_1_5 (some 7) 1 = 5 ∧ ask_int_1_5 (some 7) 1 ≠ 1 := by
  decide

/-- Claim C3 (amended): an input that is unparsable as an integer defaults
to the default value 1; a parsable value is clamped into `[1,5]` (values
below 1 become 1, values above 5 become 5); a parsable value already in
`[1,5]` is returned unchanged. -/
theorem C3_answer_normalizer (v d : Int) :
    ask_int_1_5 none d = d ∧
    ask_int_1_5 (some v) d = min (max v 1) 5 ∧
    (1 ≤ v → v ≤ 5 → ask_int_1_5 (some v) d = v) := by
  refine ⟨rfl, ?_, ?_⟩
  · simp only [ask_int_1_5]
    split_ifs <;> omega
  · intro h1 h5
    simp only [ask_int_1_5]
    split_ifs <;> omega

/-- Witness for Claim C3: the in-range answer 3 passes through unchanged. -/
theorem C3_answer_normalizer_witness :
    ask_int_1_5 (some 3) 1 = 3 :=
  (C3_answer_normalizer 3 1).2.2 (by decide) (by decide)

/-- Claim C10: because every normalized answer lies in `[1,5]` and the
weights are positive, every recorded health-assessment score lies in
`[20, 100]`; consequently the "Aman" tier is only reached with a score in
`[20, 60)`. -/
theorem C10_score_range (r1 r2 r3 r4 r5 : Option Int) :
    20 ≤ (submit_asesmen_kesehatan_score r1 r2 r3 r4 r5).1 ∧
    (submit_asesmen_kesehatan_score r1 r2 r3 r4 r5).1 ≤ 100 ∧
    ((submit_asesmen_kesehatan_score r1 r2 r3 r4 r5).2 = "Aman" →
      20 ≤ (submit_asesmen_kesehatan_score r1 r2 r3 r4 r5).1 ∧
        (submit_asesmen_kesehatan_score r1 r2 r3 r4 r5).1 < 60) := by
  obtain ⟨h1a, h1b⟩ := ask_int_1_5_mem r1
  obtain ⟨h2a, h2b⟩ := ask_int_1_5_mem r2
  obtain ⟨h3a, h3b⟩ := ask_int_1_5_mem r3
  obtain ⟨h4a, h4b⟩ := ask_int_1_5_mem r4
  obtain ⟨h5a, h5b⟩ := ask_int_1_5_mem r5
  have c1a : (1 : ℚ) ≤ (ask_int_1_5 r1 1 : ℚ) := by exact_mod_cast h1a
  have c1b : (ask_int_1_5 r1 1 : ℚ) ≤ 5 := by exact_mod_cast h1b
  have c2a : (1 : ℚ) ≤ (ask_int_1_5 r2 1 : ℚ) := by exact_mod_cast h2a
  have c2b : (ask_int_1_5 r2 1 : ℚ) ≤ 5 := by exact_mod_cast h2b
  have c3a : (1 : ℚ) ≤ (ask_int_1_5 r3 1 : ℚ) := by exact_mod_cast h3a
  have c3b : (ask_int_1_5 r3 1 : ℚ) ≤ 5 := by exact_mod_cast h3b
  have c4a : (1 : ℚ) ≤ (ask_int_1_5 r4 1 : ℚ) := by exact_mod_cast h4a
  have c4b : (ask_int_1_5 r4 1 : ℚ) ≤ 5 := by exact_mod_cast h4b
  have c5a : (1 : ℚ) ≤ (ask_int_1_5 r5 1 : ℚ) := by exact_mod_cast h5a
  have c5b : (ask_int_1_5 r5 1 : ℚ) ≤ 5 := by exact_mod_cast h5b
  have hlo : 20 ≤ (submit_asesmen_kesehatan_score r1 r2 r3 r4 r5).1 := by
    simp only [submit_asesmen_kesehatan_score, skor_100, skor_of, max_skor_of,
      kesehatan_weights]
    rw [div_mul_eq_mul_div, le_div_iff₀ (by norm_num)]
    linarith
  have hhi : (submit_asesmen_kesehatan_score r1 r2 r3 r4 r5).1 ≤ 100 := by
    simp only [submit_asesmen_kesehatan_score, skor_100, skor_of, max_skor_of,
      kesehatan_weights]
    rw [div_mul_eq_mul_div, div_le_iff₀ (by norm_num)]
    linarith
  refine ⟨hlo, hhi, ?_⟩
  intro hAman
  refine ⟨hlo, ?_⟩
  have hsnd : (submit_asesmen_kesehatan_score r1 r2 r3 r4 r5).2 =
      status_of_skor (submit_asesmen_kesehatan_score r1 r2 r3 r4 r5).1 := rfl
  rw [hsnd, status_of_skor_eq_aman] at hAman
  exact hAman

/-- Witness for Claim C10 at the all-unparsable input (all answers default
to 1, the minimum): score 20, within the stated range. -/
theorem C10_score_range_witness :
    20 ≤ (submit_asesmen_kesehatan_score none none none none none).1 ∧
    (submit_asesmen_kesehatan_score none none none none none).1 ≤ 100 :=
  ⟨(C10_score_range none none none none none).1,
    (C10_score_range none none none none none).2.1⟩

/-! ## Moderation ledger (`pg_data.py`): logistics status transitions and
assessment active-toggles, with the admin action log. -/

/-- Python `str.strip()` (whitespace trimming), written structurally over
the character list so the kernel can evaluate it on literals. -/
def pyStrip (s : String) : String :=
  ⟨((s.data.dropWhile Char.isWhitespace).reverse.dropWhile Char.isWhitespace).reverse⟩

/-- Python `str.lower()` (ASCII case folding, which covers every string
this code compares), written structurally over the character list. -/
def pyLower (s : String) : String :=
  ⟨s.data.map Char.toLower⟩

/-- A row of `logistik_permintaan` (the columns the transition touches). -/
structure PermintaanRow where
  id : Int
  status_permintaan : String
deriving DecidableEq

/-- A row of one of the six `asesmen_*` tables; `kind` names which table
the row lives in (the tables are disjoint by construction). -/
structure AsesmenRow where
  kind : String
  id : Int
  is_active : Bool
deriving DecidableEq

/-- The structured `payload` dict passed to `pg_insert_admin_action_log`:
either the old/new status pair of a logistics transition
(pg_data.py lines 1626-1631) or the kind/id/new-active triple of an
assessment toggle (pg_data.py line 1872). -/
inductive AuditPayload where
  | statusLogistik (id : Int) (old new : String)
  | asesmenActive (kind : String) (id : Int) (is_active : Bool)
deriving DecidableEq

/-- One row of `admin_action_log` as written by
`pg_insert_admin_action_log` (pg_data.py lines 1689-1761; that function
swallows every storage error internally, so the sink is modelled total). -/
structure AdminActionLogEntry where
  actor_id_relawan : Option String
  actor_nama_relawan : Option String
  action : String
  target_kind : Option String
  target_table : Option String
  target_id : Option Int
  note : Option String
  payload : Option AuditPayload
deriving DecidableEq

/-- The backing-store state touched by the two moderation operations. -/
structure PGState where
  logistik_permintaan : List PermintaanRow
  asesmen : List AsesmenRow
  admin_action_log : List AdminActionLogEntry
deriving DecidableEq

/-- Default table name used by `pg_update_logistik_permintaan_status`. -/
def logistik_permintaan_table : String := "public.logistik_permintaan"

/-- Embeds `pg_update_logistik_permintaan_status` (pg_data.py lines
1591-1637): look the row up by id (`SELECT ... LIMIT 1`); if absent return
False; otherwise update the row, and on success append one admin-action
log entry whose payload holds the old and the new status. -/
def pg_update_logistik_permintaan_status (id_permintaan : Int) (status_new : String)
    (actor_id_relawan actor_nama_relawan note : Option String)
    (st : PGState) : Bool × PGState :=
  match st.logistik_permintaan.find? (fun r => r.id == id_permintaan) with
  | none => (false, st)
  | some row_old =>
    let old_status := pyStrip row_old.status_permintaan
    let newRows := st.logistik_permintaan.map
      (fun r => if r.id == id_permintaan then { r with status_permintaan := status_new } else r)
    let ok := !(st.logistik_permintaan.filter (fun r => r.id == id_permintaan)).isEmpty
    if ok then
      let entry : AdminActionLogEntry :=
        { actor_id_relawan := actor_id_relawan
          actor_nama_relawan := actor_nama_relawan
          action := "CHANGE_STATUS_LOGISTIK"
          target_kind := some "permintaan_logistik"
          target_table := some logistik_permintaan_table
          target_id := some id_permintaan
          note := note
          payload := some (.statusLogistik id_permintaan old_status status_new) }
      (true, { st with logistik_permintaan := newRows,
                       admin_action_log := st.admin_action_log ++ [entry] })
    else (false, { st with logistik_permintaan := newRows })

/-- The keys of `kind_map` in `pg_set_asesmen_active`
(pg_data.py lines 1832-1839). -/
def asesmen_kind_keys : List String :=
  ["kesehatan", "pendidikan", "psikososial", "infrastruktur", "wash", "kondisi"]

/-- Default table name for an assessment kind (the second component of the
`kind_map` entries: `public.asesmen_<kind>`). -/
def asesmen_table_of (k : String) : String := "public.asesmen_" ++ k

/-- Embeds `pg_set_asesmen_active` (pg_data.py lines 1817-1875): normalize
the kind, raise `ValueError` on an unknown kind (the `Except.error` case),
update the matching row of the kind table, and on success append one
admin-action log entry whose payload holds only the new active flag. -/
def pg_set_asesmen_active (kind : String) (asesmen_id : Int) (is_active : Bool)
    (actor_id_relawan actor_nama_relawan note : Option String)
    (st : PGState) : Except String (Bool × PGState) :=
  let kind_key := pyLower (pyStrip kind)
  if ¬ (kind_key ∈ asesmen_kind_keys) then .error "kind asesmen tidak dikenal"
  else
    let table := asesmen_table_of kind_key
    let newRows := st.asesmen.map
      (fun r => if r.kind == kind_key && r.id == asesmen_id then { r with is_active := is_active } else r)
    let ok := !(st.asesmen.filter (fun r => r.kind == kind_key && r.id == asesmen_id)).isEmpty
    if ok then
      let action := if is_active then "ACTIVATE_ASESMEN" else "DEACTIVATE_ASESMEN"
      let entry : AdminActionLogEntry :=
        { actor_id_relawan := actor_id_relawan
          actor_nama_relawan := actor_nama_relawan
          action := action
          target_kind := some kind_key
          target_table := some table
          target_id := some asesmen_id
          note := note
          payload := some (.asesmenActive kind_key asesmen_id is_active) }
      .ok (true, { st with asesmen := newRows,
                           admin_action_log := st.admin_action_log ++ [entry] })
    else .ok (false, { st with asesmen := newRows })

/-- Response of the HTTP endpoint, reduced to outcome plus error text. -/
inductive ApiResp where
  | ok
  | err (code : Nat) (msg : String)
deriving DecidableEq

/-- The `allowed` set of `api_update_permintaan_status`
(app_postgres.py line 1092): six values, including "Draft". -/
def allowed_status_permintaan : List String :=
  ["Usulan", "Draft", "Diproses", "Dikirim", "Diterima", "Ditolak"]

/-- Embeds `api_update_permintaan_status` (app_postgres.py lines
1063-1115): session checks, feature flag, status validation against the
allowed set, id parsing (`none` models an unparsable id), then the
storage-layer transition. -/
def api_update_permintaan_status (logged_in is_admin pg_enabled : Bool)
    (id_raw : Option Int) (status_payload note_payload : Option String)
    (actor_id_relawan actor_nama_relawan : Option String)
    (st : PGState) : ApiResp × PGState :=
  if !logged_in then (.err 401 "Unauthorized", st)
  else if !is_admin then (.err 403 "Forbidden", st)
  else if !pg_enabled then (.err 500 "Fitur belum aktif (pg_data belum siap).", st)
  else
    let status_new := pyStrip (status_payload.getD "")
    let note :=
      let s := pyStrip (note_payload.getD "")
      if s = "" then none else some s
    if ¬ (status_new ∈ allowed_status_permintaan) then
      (.err 400 "Status tidak valid.", st)
    else
      match id_raw with
      | none => (.err 400 "ID tidak valid.", st)
      | some id_int =>
        let res := pg_update_logistik_permintaan_status id_int status_new
          actor_id_relawan actor_nama_relawan note st
        if res.1 then (.ok, res.2)
        else (.err 404 "Data permintaan tidak ditemukan.", res.2)

/-! ## Helper lemmas for the ledger -/

theorem filter_empty_map_update_eq {α : Type} (l : List α) (p : α → Bool) (f : α → α)
    (h : (l.filter p).isEmpty = true) :
    l.map (fun r => if p r then f r else r) = l := by
  induction l with
  | nil => rfl
  | cons a t ih =>
    by_cases hp : p a
    · simp [List.filter_cons, hp] at h
    · simp only [List.filter_cons, hp, if_neg, Bool.false_eq_true, ite_false] at h
      simp only [List.map_cons, hp, Bool.false_eq_true, ite_false]
      rw [ih h]

theorem find?_some_filter_not_empty {α : Type} (l : List α) (p : α → Bool) (r : α)
    (h : l.find? p = some r) : (l.filter p).isEmpty = false := by
  have hp : p r = true := List.find?_some h
  have hm : r ∈ l := List.mem_of_find?_eq_some h
  have hmem : r ∈ l.filter p := List.mem_filter.mpr ⟨hm, hp⟩
  cases hf : l.filter p with
  | nil => rw [hf] at hmem; cases hmem
  | cons a t => rfl

/-! ## Claim theorems for the ledger -/

/-- Claim C2 counterexample: the target status "Draft" lies outside the
five-value set named by the claim, yet on an existing request the
endpoint accepts it, changes the stored status and writes an audit
entry. -/
theorem C2_counterexample :
    "Draft" ∉ (["Usulan", "Diproses", "Dikirim", "Diterima", "Ditolak"] : List String) ∧
    (api_update_permintaan_status true true true (some 1) (some "Draft") none
      none none ⟨[⟨1, "Usulan"⟩], [], []⟩).1 = .ok ∧
    (api_update_permintaan_status true true true (some 1) (some "Draft") none
      none none ⟨[⟨1, "Usulan"⟩], [], []⟩).2.logistik_permintaan = [⟨1, "Draft"⟩] ∧
    (api_update_permintaan_status true true true (some 1) (some "Draft") none
      none none ⟨[⟨1, "Usulan"⟩], [], []⟩).2.admin_action_log ≠ [] := by
  decide

/-- Claim C2 (amended): the transition endpoint accepts a target status
only if (after trimming) it is one of the SIX known values Usulan, Draft,
Diproses, Dikirim, Diterima, Ditolak; any other target status is rejected
with a 400 response before any state change or audit write occurs. -/
theorem C2_status_validation (logged_in is_admin pg_enabled : Bool)
    (id_raw : Option Int) (status_payload note_payload : Option String)
    (actor_id actor_nama : Option String) (st : PGState) :
    (logged_in = true → is_admin = true → pg_enabled = true →
      ¬ (pyStrip (status_payload.getD "") ∈ allowed_status_permintaan) →
      api_update_permintaan_status logged_in is_admin pg_enabled id_raw
          status_payload note_payload actor_id actor_nama st =
        (.err 400 "Status tidak valid.", st)) ∧
    ((api_update_permintaan_status logged_in is_admin pg_enabled id_raw
        status_payload note_payload actor_id actor_nama st).1 = .ok →
      pyStrip (status_payload.getD "") ∈ allowed_status_permintaan) := by
  constructor
  · intro hl ha hp hnot
    subst hl; subst ha; subst hp
    simp [api_update_permintaan_status, hnot]
  · intro hok
    by_contra hnot
    cases logged_in <;> cases is_admin <;> cases pg_enabled <;>
      simp [api_update_permintaan_status, hnot] at hok

/-- Witness for Claim C2: the unknown status "Hapus" is rejected with a
400 response and the store is left untouched. -/
theorem C2_status_validation_witness :
    api_update_permintaan_status true true true (some 1) (some "Hapus") none
        none none ⟨[⟨1, "Usulan"⟩], [], []⟩ =
      (.err 400 "Status tidak valid.", ⟨[⟨1, "Usulan"⟩], [], []⟩) :=
  (C2_status_validation true true true (some 1) (some "Hapus") none
      none none ⟨[⟨1, "Usulan"⟩], [], []⟩).1 rfl rfl rfl (by decide)


/-- Claim C8 counterexample: two stores that differ only in the prior
active flag of assessment kesehatan/1 produce byte-identical audit-log
entries when that assessment is toggled to active, so a successful toggle
does not record a before/after payload (only the new value). -/
theorem C8_counterexample :
    (⟨[], [⟨"kesehatan", 1, true⟩], []⟩ : PGState) ≠ ⟨[], [⟨"kesehatan", 1, false⟩], []⟩ ∧
    (pg_set_asesmen_active "kesehatan" 1 true none none none
        ⟨[], [⟨"kesehatan", 1, true⟩], []⟩).toOption.map (fun r => r.2.admin_action_log) =
      (pg_set_asesmen_active "kesehatan" 1 true none none none
        ⟨[], [⟨"kesehatan", 1, false⟩], []⟩).toOption.map (fun r => r.2.admin_action_log) ∧
    (pg_set_asesmen_active "kesehatan" 1 true none none none
        ⟨[], [⟨"kesehatan", 1, true⟩], []⟩).toOption.map (fun r => r.2.admin_action_log) ≠
      some [] := by
  decide

/-- Claim C8 (amended): a status transition or active toggle whose target
id is absent reports failure and changes neither the store nor the audit
log; a successful transition appends exactly one audit entry with actor,
action, target identity and an old/new status payload, and a successful
toggle appends exactly one audit entry with actor, action, target
identity and a payload holding the new active flag (no before value). -/
theorem C8_moderation_audit (id_p : Int) (status_new : String)
    (aid anm note : Option String) (kind : String) (as_id : Int) (b : Bool)
    (st : PGState) :
    (st.logistik_permintaan.find? (fun r => r.id == id_p) = none →
      pg_update_logistik_permintaan_status id_p status_new aid anm note st =
        (false, st)) ∧
    (∀ row, st.logistik_permintaan.find? (fun r => r.id == id_p) = some row →
      pg_update_logistik_permintaan_status id_p status_new aid anm note st =
        (true,
          { logistik_permintaan := st.logistik_permintaan.map
              (fun r => if r.id == id_p then { r with status_permintaan := status_new } else r)
            asesmen := st.asesmen
            admin_action_log := st.admin_action_log ++
              [{ actor_id_relawan := aid
                 actor_nama_relawan := anm
                 action := "CHANGE_STATUS_LOGISTIK"
                 target_kind := some "permintaan_logistik"
                 target_table := some logistik_permintaan_table
                 target_id := some id_p
                 note := note
                 payload := some (.statusLogistik id_p
                   (pyStrip row.status_permintaan) status_new) }] })) ∧
    (¬ (pyLower (pyStrip kind) ∈ asesmen_kind_keys) →
      pg_set_asesmen_active kind as_id b aid anm note st =
        .error "kind asesmen tidak dikenal") ∧
    (pyLower (pyStrip kind) ∈ asesmen_kind_keys →
      (st.asesmen.filter
        (fun r => r.kind == pyLower (pyStrip kind) && r.id == as_id)).isEmpty = true →
      pg_set_asesmen_active kind as_id b aid anm note st = .ok (false, st)) ∧
    (pyLower (pyStrip kind) ∈ asesmen_kind_keys →
      (st.asesmen.filter
        (fun r => r.kind == pyLower (pyStrip kind) && r.id == as_id)).isEmpty = false →
      pg_set_asesmen_active kind as_id b aid anm note st =
        .ok (true,
          { logistik_permintaan := st.logistik_permintaan
            asesmen := st.asesmen.map
              (fun r => if r.kind == pyLower (pyStrip kind) && r.id == as_id
                then { r with is_active := b } else r)
            admin_action_log := st.admin_action_log ++
              [{ actor_id_relawan := aid
                 actor_nama_relawan := anm
                 action := if b then "ACTIVATE_ASESMEN" else "DEACTIVATE_ASESMEN"
                 target_kind := some (pyLower (pyStrip kind))
                 target_table := some (asesmen_table_of (pyLower (pyStrip kind)))
                 target_id := some as_id
                 note := note
                 payload := some (.asesmenActive (pyLower (pyStrip kind)) as_id b) }] })) := by
  refine ⟨?_, ?_, ?_, ?_, ?_⟩
  · intro hnone
    simp [pg_update_logistik_permintaan_status, hnone]
  · intro row hrow
    have hne := find?_some_filter_not_empty _ _ _ hrow
    simp [pg_update_logistik_permintaan_status, hrow, hne]
  · intro hkind
    simp [pg_set_asesmen_active, hkind]
  · intro hkind hempty
    have hmap : st.asesmen.map
        (fun r => if r.kind == pyLower (pyStrip kind) && r.id == as_id
          then { r with is_active := b } else r) = st.asesmen :=
      filter_empty_map_update_eq st.asesmen _ _ hempty
    simp at hmap
    simp [pg_set_asesmen_active, hkind, hempty, hmap]
  · intro hkind hne
    simp [pg_set_asesmen_active, hkind, hne]

/-- Witness for Claim C8: transitioning a missing request id on an empty
store reports failure and leaves the store untouched. -/
theorem C8_moderation_audit_witness :
    pg_update_logistik_permintaan_status 7 "Diproses" none none none
      ⟨[], [], []⟩ = (false, ⟨[], [], []⟩) :=
  (C8_moderation_audit 7 "Diproses" none none none "kesehatan" 1 true
    ⟨[], [], []⟩).1 (by decide)

/-! ## Spreadsheet caches (`app_postgres.py` lines 186-293) -/

/-- A module-level cache cell (`CACHE_REKAP` / `CACHE_DISTRIBUSI`):
`{"data": ..., "timestamp": ...}`. -/
structure SheetCache (α : Type) where
  data : List α
  timestamp : ℚ
deriving DecidableEq

/-- Embeds `get_rekap_from_spreadsheet` (app_postgres.py lines 186-232).
The gspread fetch plus row cleaning of the try block (lines 191-227) is
abstracted as a fallible `fetch` yielding the cleaned rows; `none` models
an exception raised anywhere in that block. Returns the served rows and
the cache cell afterwards. On a failed refetch the old cached value is
served if non-empty (line 232). -/
def get_rekap_from_spreadsheet {α : Type} (now : ℚ) (fetch : Option (List α))
    (c : SheetCache α) : List α × SheetCache α :=
  if now - c.timestamp < 300 ∧ c.data.isEmpty = false then (c.data, c)
  else
    match fetch with
    | some cleaned_data => (cleaned_data, ⟨cleaned_data, now⟩)
    | none => (if c.data.isEmpty = false then c.data else [], c)

/-- Embeds `get_logistik_keluar_grouped` (app_postgres.py lines 234-293),
with the fetch and grouping abstracted the same way. On a failed refetch
this one returns the empty list (line 293), not the cached value. -/
def get_logistik_keluar_grouped {α : Type} (now : ℚ) (fetch : Option (List α))
    (c : SheetCache α) : List α × SheetCache α :=
  if now - c.timestamp < 300 ∧ c.data.isEmpty = false then (c.data, c)
  else
    match fetch with
    | some final_list => (final_list, ⟨final_list, now⟩)
    | none => ([], c)

/-- Claim C7 counterexample: with a stale non-empty distribution cache
holding `[7]` and a failing refetch, `get_logistik_keluar_grouped`
returns the empty list, not the previously cached value. -/
theorem C7_counterexample :
    get_logistik_keluar_grouped 1000 none (⟨[7], 0⟩ : SheetCache ℕ) =
      ([], ⟨[7], 0⟩) ∧ ([] : List ℕ) ≠ [7] := by
  refine ⟨?_, by decide⟩
  simp only [get_logistik_keluar_grouped]
  norm_num

/-- Claim C7 (amended): a read against a non-empty cache entry fetched
less than 300 seconds ago returns the cached data without contacting the
source (the result does not depend on the fetch argument); otherwise the
source is refetched and on success the cache cell is overwritten with the
fresh data and timestamp; on a failed refetch the rekap read serves the
previously cached value (or the empty list if there is none) while the
distribution read serves the empty list, and in both cases the cache cell
is left unchanged. -/
theorem C7_cache_ttl {α : Type} (now : ℚ) (fetch : Option (List α))
    (c : SheetCache α) :
    (now - c.timestamp < 300 → c.data.isEmpty = false →
      get_rekap_from_spreadsheet now fetch c = (c.data, c) ∧
      get_logistik_keluar_grouped now fetch c = (c.data, c)) ∧
    (∀ d, ¬ (now - c.timestamp < 300 ∧ c.data.isEmpty = false) →
      fetch = some d →
      get_rekap_from_spreadsheet now fetch c = (d, ⟨d, now⟩) ∧
      get_logistik_keluar_grouped now fetch c = (d, ⟨d, now⟩)) ∧
    (¬ (now - c.timestamp < 300 ∧ c.data.isEmpty = false) → fetch = none →
      get_rekap_from_spreadsheet now fetch c =
        ((if c.data.isEmpty = false then c.data else []), c) ∧
      get_logistik_keluar_grouped now fetch c = ([], c)) := by
  refine ⟨?_, ?_, ?_⟩
  · intro h1 h2
    have hc : now - c.timestamp < 300 ∧ c.data.isEmpty = false := ⟨h1, h2⟩
    constructor
    · simp only [get_rekap_from_spreadsheet]
      rw [if_pos hc]
    · simp only [get_logistik_keluar_grouped]
      rw [if_pos hc]
  · intro d hmiss hf
    subst hf
    constructor
    · simp only [get_rekap_from_spreadsheet]
      rw [if_neg hmiss]
    · simp only [get_logistik_keluar_grouped]
      rw [if_neg hmiss]
  · intro hmiss hf
    subst hf
    constructor
    · simp only [get_rekap_from_spreadsheet]
      rw [if_neg hmiss]
    · simp only [get_logistik_keluar_grouped]
      rw [if_neg hmiss]

/-- Witness for Claim C7: a fresh non-empty cache is served as-is even
though the source would return different data. -/
theorem C7_cache_ttl_witness :
    get_rekap_from_spreadsheet 10 (some [2]) (⟨[1], 0⟩ : SheetCache ℕ) =
      ([1], ⟨[1], 0⟩) ∧
    get_logistik_keluar_grouped 10 (some [2]) (⟨[1], 0⟩ : SheetCache ℕ) =
      ([1], ⟨[1], 0⟩) :=
  (C7_cache_ttl 10 (some [2]) (⟨[1], 0⟩ : SheetCache ℕ)).1
    (by norm_num) (by decide)

/-! ## Geometry kernel: ray-casting point-in-polygon
(`point_in_polygon`, app_postgres.py lines 1438-1458) -/

/-- The x-intersection `xinters` of an edge with the horizontal line at
height `y` (app_postgres.py line 1453). Rational division is total, and
the code only reads this value when `p1y != p2y`. -/
def xinters (y p1x p1y p2x p2y : ℚ) : ℚ :=
  (y - p1y) * (p2x - p1x) / (p2y - p1y) + p1x

/-- Whether one loop iteration of `point_in_polygon` toggles `inside`:
the y-window tests, the x-bound test and the x-intersection test of
app_postgres.py lines 1449-1455. Inside the y-window `p1y != p2y` always
holds (the window is empty when the edge is horizontal), so the
conditionally assigned `xinters` of the Python code is always freshly
assigned when it is read; here it is simply computed in place. -/
def pipToggle (x y p1x p1y p2x p2y : ℚ) : Bool :=
  if y > min p1y p2y ∧ y ≤ max p1y p2y ∧ x ≤ max p1x p2x then
    p1x == p2x || decide (x ≤ xinters y p1x p1y p2x p2y)
  else false

/-- The `for i in range(n + 1)` loop of `point_in_polygon`: `p1` starts at
`polygon[0]` and `p2` runs through the list passed here, which the
wrapper takes to be `polygon ++ [polygon[0]]` (matching `polygon[i % n]`
for `i = 0..n`). -/
def pipLoop (x y : ℚ) : ℚ × ℚ → List (ℚ × ℚ) → Bool → Bool
  | _, [], inside => inside
  | p1, p2 :: rest, inside =>
      pipLoop x y p2 rest
        (if pipToggle x y p1.1 p1.2 p2.1 p2.2 then !inside else inside)

/-- Embeds `point_in_polygon` (app_postgres.py lines 1438-1458).
`point` is `(x, y) = (lon, lat)`. Python raises `IndexError` on an empty
vertex list (`polygon[0]`); that case is `none` here, and every caller
guards non-emptiness. -/
def point_in_polygon (point : ℚ × ℚ) (polygon : List (ℚ × ℚ)) : Option Bool :=
  match polygon with
  | [] => none
  | p0 :: rest => some (pipLoop point.1 point.2 p0 ((p0 :: rest) ++ [p0]) false)

/-- The successive vertex pairs `(p1, p2)` visited by a loop that starts
with `p1 = a` and runs `p2` through `l`. -/
def chainEdges (a : ℚ × ℚ) : List (ℚ × ℚ) → List ((ℚ × ℚ) × (ℚ × ℚ))
  | [] => []
  | b :: rest => (a, b) :: chainEdges b rest

/-- Spec-side definition taken from the claim, for the refinement
statement: the horizontal ray going right from `(x, y)` strictly crosses
the edge `e` (textbook ray-casting crossing condition). -/
def rayCrosses (x y : ℚ) (e : (ℚ × ℚ) × (ℚ × ℚ)) : Bool :=
  decide (min e.1.2 e.2.2 < y ∧ y < max e.1.2 e.2.2) &&
    decide (x < xinters y e.1.1 e.1.2 e.2.1 e.2.2)

/-- Spec-side: the number of proper polygon edges (each vertex to the
next, closing back to the first) strictly crossed by the rightward ray
from `(x, y)`. -/
def crossingCount (x y : ℚ) (polygon : List (ℚ × ℚ)) : ℕ :=
  match polygon with
  | [] => 0
  | p0 :: rest => (chainEdges p0 (rest ++ [p0])).countP (rayCrosses x y)

/-! ### Structural lemmas about the loop -/

theorem pipLoop_parity (x y : ℚ) (l : List (ℚ × ℚ)) :
    ∀ (a : ℚ × ℚ) (acc : Bool),
      pipLoop x y a l acc =
        xor acc (decide (Odd ((chainEdges a l).countP
          (fun e => pipToggle x y e.1.1 e.1.2 e.2.1 e.2.2)))) := by
  induction l with
  | nil =>
    intro a acc
    simp [pipLoop, chainEdges]
  | cons b rest ih =>
    intro a acc
    simp only [pipLoop, chainEdges, List.countP_cons]
    rw [ih]
    have hodd : ∀ n : ℕ, decide (Odd (n + 1)) = !decide (Odd n) := by
      intro n
      by_cases h : Odd n <;> simp [Nat.odd_add_one, h]
    cases hT : pipToggle x y a.1 a.2 b.1 b.2 with
    | false =>
      rw [if_neg Bool.false_ne_true, if_neg Bool.false_ne_true, Nat.add_zero]
    | true =>
      simp only [hT]
      rw [if_true, if_true, hodd]
      generalize decide (Odd ((chainEdges b rest).countP
        (fun e => pipToggle x y e.1.1 e.1.2 e.2.1 e.2.2))) = d
      cases acc <;> cases d <;> rfl

theorem chainEdges_subset (a : ℚ × ℚ) (l : List (ℚ × ℚ)) :
    ∀ e ∈ chainEdges a l, (e.1 ∈ a :: l) ∧ (e.2 ∈ l) := by
  induction l generalizing a with
  | nil => intro e he; cases he
  | cons b rest ih =>
    intro e he
    cases he with
    | head =>
      exact ⟨List.mem_cons_self _ _, List.mem_cons_self _ _⟩
    | tail _ htl =>
      obtain ⟨h1, h2⟩ := ih b e htl
      exact ⟨List.mem_cons_of_mem _ h1, List.mem_cons_of_mem _ h2⟩

theorem chain_parity_telescope (b : ℚ × ℚ → Bool) (l : List (ℚ × ℚ)) :
    ∀ a : ℚ × ℚ,
      (Odd ((chainEdges a l).countP (fun e => b e.1 != b e.2)) ↔
        b a ≠ b (l.getLastD a)) := by
  induction l with
  | nil =>
    intro a
    simp [chainEdges]
  | cons hd tl ih =>
    intro a
    simp only [chainEdges, List.countP_cons, List.getLastD_cons]
    by_cases hab : b a = b hd
    · have hne : (b a != b hd) = false := by simp [hab]
      simp only [hne, Bool.false_eq_true, if_false, Nat.add_zero]
      rw [ih hd, hab]
    · have hne : (b a != b hd) = true := by simp [hab]
      simp only [hne, if_true, Nat.add_one]
      rw [Nat.odd_add_one, ih hd]
      cases hA : b a <;> cases hH : b hd <;>
        cases hL : b (tl.getLastD hd) <;> simp_all

theorem xinters_swap (y p1x p1y p2x p2y : ℚ) (hne : p1y ≠ p2y) :
    xinters y p1x p1y p2x p2y = xinters y p2x p2y p1x p1y := by
  unfold xinters
  have h1 : p2y - p1y ≠ 0 := fun h => hne (by linarith)
  have h2 : p1y - p2y ≠ 0 := fun h => hne (by linarith)
  field_simp
  ring

theorem xinters_mem_aux (y p1x p1y p2x p2y : ℚ)
    (hy1 : p1y < y) (hy2 : y ≤ p2y) :
    min p1x p2x ≤ xinters y p1x p1y p2x p2y ∧
      xinters y p1x p1y p2x p2y ≤ max p1x p2x := by
  have hd : 0 < p2y - p1y := by linarith
  have ht0 : 0 ≤ (y - p1y) / (p2y - p1y) := div_nonneg (by linarith) hd.le
  have ht1 : (y - p1y) / (p2y - p1y) ≤ 1 := (div_le_one hd).mpr (by linarith)
  have hx : xinters y p1x p1y p2x p2y =
      (y - p1y) / (p2y - p1y) * (p2x - p1x) + p1x := by
    unfold xinters
    rw [mul_div_right_comm]
  rw [hx]
  set t := (y - p1y) / (p2y - p1y) with hts
  rcases le_total p1x p2x with hxx | hxx
  · rw [min_eq_left hxx, max_eq_right hxx]
    constructor
    · nlinarith [mul_nonneg ht0 (sub_nonneg.mpr hxx)]
    · nlinarith [mul_nonneg (sub_nonneg.mpr ht1) (sub_nonneg.mpr hxx)]
  · rw [min_eq_right hxx, max_eq_left hxx]
    constructor
    · nlinarith [mul_nonneg (sub_nonneg.mpr ht1) (sub_nonneg.mpr hxx)]
    · nlinarith [mul_nonneg ht0 (sub_nonneg.mpr hxx)]

theorem xinters_mem (y p1x p1y p2x p2y : ℚ)
    (hw1 : min p1y p2y < y) (hw2 : y ≤ max p1y p2y) :
    min p1x p2x ≤ xinters y p1x p1y p2x p2y ∧
      xinters y p1x p1y p2x p2y ≤ max p1x p2x := by
  rcases le_total p1y p2y with h | h
  · rw [min_eq_left h] at hw1
    rw [max_eq_right h] at hw2
    exact xinters_mem_aux y p1x p1y p2x p2y hw1 hw2
  · rw [min_eq_right h] at hw1
    rw [max_eq_left h] at hw2
    have hne : p1y ≠ p2y := by
      intro he
      rw [he] at hw2
      linarith
    rw [xinters_swap y p1x p1y p2x p2y hne, min_comm, max_comm]
    exact xinters_mem_aux y p2x p2y p1x p1y hw1 hw2

theorem window_eq_bne (y p1y p2y : ℚ) :
    decide (min p1y p2y < y ∧ y ≤ max p1y p2y) =
      (decide (y ≤ p1y) != decide (y ≤ p2y)) := by
  rcases le_total p1y p2y with h | h
  · rw [min_eq_left h, max_eq_right h]
    by_cases h1 : y ≤ p1y
    · have h2 : y ≤ p2y := h1.trans h
      have hnot : ¬ (p1y < y ∧ y ≤ p2y) := fun hc => absurd h1 (not_le.mpr hc.1)
      rw [decide_eq_false hnot, decide_eq_true h1, decide_eq_true h2]
      rfl
    · by_cases h2 : y ≤ p2y
      · have hyes : p1y < y ∧ y ≤ p2y := ⟨not_le.mp h1, h2⟩
        rw [decide_eq_true hyes, decide_eq_false h1, decide_eq_true h2]
        rfl
      · have hnot : ¬ (p1y < y ∧ y ≤ p2y) := fun hc => h2 hc.2
        rw [decide_eq_false hnot, decide_eq_false h1, decide_eq_false h2]
        rfl
  · rw [min_eq_right h, max_eq_left h]
    by_cases h2 : y ≤ p2y
    · have h1 : y ≤ p1y := h2.trans h
      have hnot : ¬ (p2y < y ∧ y ≤ p1y) := fun hc => absurd h2 (not_le.mpr hc.1)
      rw [decide_eq_false hnot, decide_eq_true h1, decide_eq_true h2]
      rfl
    · by_cases h1 : y ≤ p1y
      · have hyes : p2y < y ∧ y ≤ p1y := ⟨not_le.mp h2, h1⟩
        rw [decide_eq_true hyes, decide_eq_true h1, decide_eq_false h2]
        rfl
      · have hnot : ¬ (p2y < y ∧ y ≤ p1y) := fun hc => h1 hc.2
        rw [decide_eq_false hnot, decide_eq_false h1, decide_eq_false h2]
        rfl

theorem pipToggle_eq_window (x y p1x p1y p2x p2y : ℚ)
    (hx1 : x < p1x) (hx2 : x < p2x) :
    pipToggle x y p1x p1y p2x p2y =
      decide (min p1y p2y < y ∧ y ≤ max p1y p2y) := by
  unfold pipToggle
  by_cases hw : min p1y p2y < y ∧ y ≤ max p1y p2y
  · have hxm : x ≤ max p1x p2x := le_of_lt (lt_of_lt_of_le hx1 (le_max_left _ _))
    rw [if_pos ⟨hw.1, hw.2, hxm⟩, decide_eq_true hw]
    have hmem := xinters_mem y p1x p1y p2x p2y hw.1 hw.2
    have hxi : x ≤ xinters y p1x p1y p2x p2y :=
      le_of_lt (lt_of_lt_of_le (lt_min hx1 hx2) hmem.1)
    simp [hxi]
  · rw [decide_eq_false hw, if_neg (fun hc => hw ⟨hc.1, hc.2.1⟩)]

theorem pipToggle_self (x y px py : ℚ) :
    pipToggle x y px py px py = false := by
  unfold pipToggle
  rw [if_neg]
  intro hc
  rw [min_self] at hc
  rw [max_self] at hc
  exact absurd hc.2.1 (not_le.mpr hc.1)

theorem xinters_const (y p1y p2y px : ℚ) :
    xinters y px p1y px p2y = px := by
  unfold xinters
  simp

theorem pipToggle_eq_rayCrosses (x y p1x p1y p2x p2y : ℚ)
    (hy1 : y ≠ p1y) (hy2 : y ≠ p2y)
    (hxe : min p1y p2y < y → y < max p1y p2y →
      x ≠ xinters y p1x p1y p2x p2y) :
    pipToggle x y p1x p1y p2x p2y = rayCrosses x y ((p1x, p1y), (p2x, p2y)) := by
  unfold pipToggle rayCrosses
  dsimp only
  by_cases hw : min p1y p2y < y ∧ y ≤ max p1y p2y
  · have hymax : y ≠ max p1y p2y := by
      rcases max_choice p1y p2y with hm | hm <;> rw [hm] <;> assumption
    have hws : y < max p1y p2y := lt_of_le_of_ne hw.2 hymax
    have hne : x ≠ xinters y p1x p1y p2x p2y := hxe hw.1 hws
    have hmem := xinters_mem y p1x p1y p2x p2y hw.1 hw.2
    by_cases hxm : x ≤ max p1x p2x
    · have hcross : min p1y p2y < y ∧ y < max p1y p2y := ⟨hw.1, hws⟩
      rw [if_pos ⟨hw.1, hw.2, hxm⟩, decide_eq_true hcross, Bool.true_and]
      by_cases hpp : p1x = p2x
      · have hxi : xinters y p1x p1y p2x p2y = p1x := by
          rw [hpp]
          exact xinters_const y p1y p2y p2x
        have hmaxeq : max p1x p2x = p1x := by
          rw [hpp, max_self]
        have hlt : x < xinters y p1x p1y p2x p2y := by
          rw [hxi]
          exact lt_of_le_of_ne (hmaxeq ▸ hxm) (fun he => hne (he.trans hxi.symm))
        rw [decide_eq_true hlt]
        simp [hpp]
      · have hbeq : (p1x == p2x) = false := by simp [hpp]
        rw [hbeq, Bool.false_or]
        by_cases hlt : x < xinters y p1x p1y p2x p2y
        · rw [decide_eq_true hlt.le, decide_eq_true hlt]
        · have hnle : ¬ x ≤ xinters y p1x p1y p2x p2y :=
            fun hle => hlt (lt_of_le_of_ne hle hne)
          rw [decide_eq_false hnle, decide_eq_false hlt]
    · rw [if_neg (fun hc => hxm hc.2.2)]
      have hnlt : ¬ x < xinters y p1x p1y p2x p2y :=
        not_lt.mpr (le_trans hmem.2 (not_le.mp hxm).le)
      rw [decide_eq_false hnlt, Bool.and_false]
  · rw [if_neg (fun hc => hw ⟨hc.1, hc.2.1⟩)]
    have hnw : ¬ (min p1y p2y < y ∧ y < max p1y p2y) :=
      fun hc => hw ⟨hc.1, hc.2.le⟩
    rw [decide_eq_false hnw, Bool.false_and]

theorem getLastD_append_single {α : Type} (l : List α) (z a : α) :
    (l ++ [z]).getLastD a = z := by
  induction l generalizing a with
  | nil => rfl
  | cons h t ih =>
    simp only [List.cons_append, List.getLastD_cons]
    exact ih h

theorem countP_congr_mem {α : Type} (l : List α) (p q : α → Bool)
    (h : ∀ a ∈ l, p a = q a) : l.countP p = l.countP q := by
  induction l with
  | nil => rfl
  | cons a t ih =>
    rw [List.countP_cons, List.countP_cons,
      h a (List.mem_cons_self _ _),
      ih (fun b hb => h b (List.mem_cons_of_mem _ hb))]

/-- Claim C4: for every ring of at least 3 vertices, (a) at every point
in general position with respect to the ring (its latitude avoids the
vertex latitudes and its longitude avoids the ray/edge intersection
abscissas), `point_in_polygon` answers exactly the parity of the number
of edges strictly crossed by the rightward horizontal ray - the standard
Jordan (ray-casting) characterization of being strictly inside a simple
polygon, so strictly interior points (odd parity) answer true - and (b)
for every point strictly outside the ring's axis-aligned bounding box it
answers false. -/
theorem C4_point_in_polygon (x y : ℚ) (p0 : ℚ × ℚ) (rest : List (ℚ × ℚ))
    (hlen : 3 ≤ (p0 :: rest).length) :
    ((∀ v ∈ p0 :: rest, y ≠ v.2) →
      (∀ e ∈ chainEdges p0 (rest ++ [p0]),
        min e.1.2 e.2.2 < y → y < max e.1.2 e.2.2 →
          x ≠ xinters y e.1.1 e.1.2 e.2.1 e.2.2) →
      point_in_polygon (x, y) (p0 :: rest) =
        some (decide (Odd (crossingCount x y (p0 :: rest))))) ∧
    (((∀ v ∈ p0 :: rest, x < v.1) ∨ (∀ v ∈ p0 :: rest, v.1 < x) ∨
        (∀ v ∈ p0 :: rest, y < v.2) ∨ (∀ v ∈ p0 :: rest, v.2 < y)) →
      point_in_polygon (x, y) (p0 :: rest) = some false) := by
  have hpoly : point_in_polygon (x, y) (p0 :: rest) =
      some (pipLoop x y p0 (p0 :: (rest ++ [p0])) false) := rfl
  have hchain : chainEdges p0 (p0 :: (rest ++ [p0])) =
      (p0, p0) :: chainEdges p0 (rest ++ [p0]) := rfl
  have hconv : ∀ v : ℚ × ℚ, v ∈ rest ++ [p0] → v ∈ p0 :: rest := by
    intro v hv
    rcases List.mem_append.mp hv with h | h
    · exact List.mem_cons_of_mem _ h
    · rw [List.mem_singleton] at h
      rw [h]
      exact List.mem_cons_self _ _
  have hconv2 : ∀ v : ℚ × ℚ, v ∈ p0 :: (rest ++ [p0]) → v ∈ p0 :: rest := by
    intro v hv
    rcases List.mem_cons.mp hv with h | h
    · rw [h]
      exact List.mem_cons_self _ _
    · exact hconv v h
  have hmemo : ∀ e ∈ chainEdges p0 (rest ++ [p0]),
      e.1 ∈ p0 :: rest ∧ e.2 ∈ p0 :: rest := by
    intro e he
    obtain ⟨h1, h2⟩ := chainEdges_subset p0 (rest ++ [p0]) e he
    exact ⟨hconv2 e.1 h1, hconv e.2 h2⟩
  have hmemfull : ∀ e ∈ chainEdges p0 (p0 :: (rest ++ [p0])),
      e.1 ∈ p0 :: rest ∧ e.2 ∈ p0 :: rest := by
    intro e he
    obtain ⟨h1, h2⟩ := chainEdges_subset p0 (p0 :: (rest ++ [p0])) e he
    refine ⟨?_, hconv2 e.2 h2⟩
    rcases List.mem_cons.mp h1 with h | h
    · rw [h]
      exact List.mem_cons_self _ _
    · exact hconv2 e.1 h
  constructor
  · intro hy hxe
    rw [hpoly, pipLoop_parity, Bool.false_xor]
    have hcnt : (chainEdges p0 (p0 :: (rest ++ [p0]))).countP
        (fun e => pipToggle x y e.1.1 e.1.2 e.2.1 e.2.2) =
        crossingCount x y (p0 :: rest) := by
      rw [hchain, List.countP_cons]
      dsimp only
      rw [pipToggle_self x y p0.1 p0.2, if_neg Bool.false_ne_true, Nat.add_zero]
      rw [show crossingCount x y (p0 :: rest) =
        (chainEdges p0 (rest ++ [p0])).countP (rayCrosses x y) from rfl]
      refine countP_congr_mem _ _ _ ?_
      intro e he
      obtain ⟨hm1, hm2⟩ := hmemo e he
      exact pipToggle_eq_rayCrosses x y e.1.1 e.1.2 e.2.1 e.2.2
        (hy e.1 hm1) (hy e.2 hm2) (hxe e he)
    rw [hcnt]
  · intro hcase
    rw [hpoly, pipLoop_parity, Bool.false_xor]
    rcases hcase with hL | hR | hD | hU
    · -- strictly left of the bounding box: every y-window edge toggles,
      -- and the toggles telescope to an even count around the closed ring
      have hcongr : ∀ e ∈ chainEdges p0 (p0 :: (rest ++ [p0])),
          (fun (e : (ℚ × ℚ) × (ℚ × ℚ)) =>
            pipToggle x y e.1.1 e.1.2 e.2.1 e.2.2) e =
          (fun (e : (ℚ × ℚ) × (ℚ × ℚ)) =>
            ((fun v : ℚ × ℚ => decide (y ≤ v.2)) e.1 !=
              (fun v : ℚ × ℚ => decide (y ≤ v.2)) e.2)) e := by
        intro e he
        obtain ⟨hm1, hm2⟩ := hmemfull e he
        dsimp only
        rw [pipToggle_eq_window x y e.1.1 e.1.2 e.2.1 e.2.2
          (hL e.1 hm1) (hL e.2 hm2)]
        exact window_eq_bne y e.1.2 e.2.2
      rw [countP_congr_mem _ _ _ hcongr]
      have htel := chain_parity_telescope (fun v : ℚ × ℚ => decide (y ≤ v.2))
        (p0 :: (rest ++ [p0])) p0
      have hlast : (p0 :: (rest ++ [p0])).getLastD p0 = p0 := by
        rw [show p0 :: (rest ++ [p0]) = (p0 :: rest) ++ [p0] from rfl]
        exact getLastD_append_single (p0 :: rest) p0 p0
      rw [hlast] at htel
      have hnodd : ¬ Odd ((chainEdges p0 (p0 :: (rest ++ [p0]))).countP
          (fun e => ((fun v : ℚ × ℚ => decide (y ≤ v.2)) e.1 !=
            (fun v : ℚ × ℚ => decide (y ≤ v.2)) e.2))) := by
        rw [htel]
        simp
      rw [decide_eq_false hnodd]
    · -- strictly right of the bounding box: the x-bound test fails
      have hzero : (chainEdges p0 (p0 :: (rest ++ [p0]))).countP
          (fun e => pipToggle x y e.1.1 e.1.2 e.2.1 e.2.2) = 0 := by
        rw [List.countP_eq_zero]
        intro e he
        obtain ⟨hm1, hm2⟩ := hmemfull e he
        unfold pipToggle
        rw [if_neg]
        · exact Bool.false_ne_true
        · intro hc
          exact absurd hc.2.2 (not_le.mpr (max_lt (hR e.1 hm1) (hR e.2 hm2)))
      rw [hzero, decide_eq_false (by simp : ¬ Odd 0)]
    · -- strictly below the bounding box: the lower y-window test fails
      have hzero : (chainEdges p0 (p0 :: (rest ++ [p0]))).countP
          (fun e => pipToggle x y e.1.1 e.1.2 e.2.1 e.2.2) = 0 := by
        rw [List.countP_eq_zero]
        intro e he
        obtain ⟨hm1, hm2⟩ := hmemfull e he
        unfold pipToggle
        rw [if_neg]
        · exact Bool.false_ne_true
        · intro hc
          exact lt_asymm (lt_min (hD e.1 hm1) (hD e.2 hm2)) hc.1
      rw [hzero, decide_eq_false (by simp : ¬ Odd 0)]
    · -- strictly above the bounding box: the upper y-window test fails
      have hzero : (chainEdges p0 (p0 :: (rest ++ [p0]))).countP
          (fun e => pipToggle x y e.1.1 e.1.2 e.2.1 e.2.2) = 0 := by
        rw [List.countP_eq_zero]
        intro e he
        obtain ⟨hm1, hm2⟩ := hmemfull e he
        unfold pipToggle
        rw [if_neg]
        · exact Bool.false_ne_true
        · intro hc
          exact absurd hc.2.1 (not_le.mpr (max_lt (hU e.1 hm1) (hU e.2 hm2)))
      rw [hzero, decide_eq_false (by simp : ¬ Odd 0)]

/-- Witness for Claim C4: the point (1,1) lies strictly inside the
triangle (0,0), (4,0), (0,4) (its rightward ray crosses exactly one
edge), and the algorithm answers true there. -/
theorem C4_point_in_polygon_witness :
    point_in_polygon (1, 1) [(0, 0), (4, 0), (0, 4)] = some true := by
  have hy : ∀ v ∈ ((0, 0) : ℚ × ℚ) :: [((4 : ℚ), (0 : ℚ)), (0, 4)],
      (1 : ℚ) ≠ v.2 := by
    intro v hv
    fin_cases hv <;> norm_num
  have hxe : ∀ e ∈ chainEdges ((0 : ℚ), (0 : ℚ))
      ([((4 : ℚ), (0 : ℚ)), (0, 4)] ++ [(0, 0)]),
      min e.1.2 e.2.2 < 1 → 1 < max e.1.2 e.2.2 →
        (1 : ℚ) ≠ xinters 1 e.1.1 e.1.2 e.2.1 e.2.2 := by
    intro e he
    simp only [chainEdges, List.cons_append, List.nil_append, List.mem_cons,
      List.not_mem_nil, or_false] at he
    rcases he with he | he | he
    · rw [he]
      intro h1 h2
      norm_num at h2
    · rw [he]
      intro h1 h2
      norm_num [xinters]
    · rw [he]
      intro h1 h2
      norm_num [xinters]
  have h := (C4_point_in_polygon 1 1 (0, 0) [(4, 0), (0, 4)]
    (by norm_num)).1 hy hxe
  rw [h]
  norm_num [crossingCount, chainEdges, rayCrosses, xinters,
    List.countP_cons, List.countP_nil]

/-! ## Nearest-facility selection in `submit_absensi`
(app_postgres.py lines 1541-1569) -/

/-- A coordinate field of a `data_lokasi` row as the check-in handler
sees it: `missing` is a Python-falsy value (absent, None, empty string,
zero), `junk` a truthy value on which `float()` raises, `num q` a truthy
value parsing to `q`. -/
inductive CoordField where
  | missing
  | junk
  | num (q : ℚ)
deriving DecidableEq

/-- Python truthiness of the raw field (`l.get("latitude")`). -/
def CoordField.truthy : CoordField → Bool
  | .missing => false
  | _ => true

/-- `float(...)` on the raw field; `none` models a raised exception. -/
def CoordField.parsed : CoordField → Option ℚ
  | .num q => some q
  | _ => none

/-- A `data_lokasi` row (only the fields the check-in handler reads). -/
structure Lokasi where
  jenis_lokasi : Option String
  latitude : CoordField
  longitude : CoordField
  kode_lokasi : Option String
  kode : Option String
deriving DecidableEq

/-- Python `a or b` for an optional string (None and "" are falsy). -/
def pyOrS (a : Option String) (b : String) : String :=
  match a with
  | none => b
  | some s => if s = "" then b else s

/-- The candidate filter (app_postgres.py lines 1547-1553): prefer
"Posko Pengungsian" rows with truthy coordinates; if there are none, use
every row with truthy coordinates. -/
def absensi_candidates (data : List Lokasi) : List Lokasi :=
  if (data.filter
      (fun l => l.jenis_lokasi == some "Posko Pengungsian"
        && (l.latitude.truthy && l.longitude.truthy))).isEmpty then
    data.filter (fun l => l.latitude.truthy && l.longitude.truthy)
  else
    data.filter
      (fun l => l.jenis_lokasi == some "Posko Pengungsian"
        && (l.latitude.truthy && l.longitude.truthy))

/-- The selection loop (app_postgres.py lines 1555-1566): walk the
candidates in order, skip rows whose coordinates fail `float()`, replace
the running minimum only on a strictly smaller distance
(`dist < min_dist`), so the first row attaining the minimum wins.
`d plat plong` stands for `haversine_distance(latitude, longitude, plat,
plong)` with the submitted coordinates fixed; its values are abstract. -/
def absensi_nearest_loop (d : ℚ → ℚ → ℚ) :
    List Lokasi → Option (ℚ × Lokasi) → Option (ℚ × Lokasi)
  | [], acc => acc
  | p :: rest, acc =>
    match p.latitude.parsed, p.longitude.parsed with
    | some plat, some plong =>
      let dist := d plat plong
      match acc with
      | none => absensi_nearest_loop d rest (some (dist, p))
      | some (m, n) =>
        if dist < m then absensi_nearest_loop d rest (some (dist, p))
        else absensi_nearest_loop d rest (some (m, n))
    | _, _ => absensi_nearest_loop d rest acc

/-- The `lokasi_posko_code` resolution of app_postgres.py lines
1568-1569 on top of the filter and the loop. -/
def submit_absensi_posko (d : ℚ → ℚ → ℚ) (data : List Lokasi) : String :=
  match absensi_nearest_loop d (absensi_candidates data) none with
  | some r => pyOrS r.2.kode_lokasi (pyOrS r.2.kode "")
  | none => ""

/-! ### Loop characterization lemmas -/

theorem absensi_loop_acc_some (d : ℚ → ℚ → ℚ) (l : List Lokasi) :
    ∀ m0 q0, absensi_nearest_loop d l (some (m0, q0)) ≠ none := by
  induction l with
  | nil =>
    intro m0 q0 h
    exact Option.noConfusion h
  | cons p rest ih =>
    intro m0 q0
    cases hlat : p.latitude.parsed with
    | none => simpa [absensi_nearest_loop, hlat] using ih m0 q0
    | some plat =>
      cases hlon : p.longitude.parsed with
      | none => simpa [absensi_nearest_loop, hlat, hlon] using ih m0 q0
      | some plong =>
        simp only [absensi_nearest_loop, hlat, hlon]
        by_cases hlt : d plat plong < m0
        · simpa [hlt] using ih (d plat plong) p
        · simpa [hlt] using ih m0 q0

theorem absensi_loop_none_iff (d : ℚ → ℚ → ℚ) (l : List Lokasi) :
    absensi_nearest_loop d l none = none ↔
      ∀ p ∈ l, p.latitude.parsed = none ∨ p.longitude.parsed = none := by
  induction l with
  | nil => simp [absensi_nearest_loop]
  | cons p rest ih =>
    cases hlat : p.latitude.parsed with
    | none =>
      rw [show absensi_nearest_loop d (p :: rest) none =
          absensi_nearest_loop d rest none from by
            simp [absensi_nearest_loop, hlat],
        ih, List.forall_mem_cons]
      simp [hlat]
    | some plat =>
      cases hlon : p.longitude.parsed with
      | none =>
        rw [show absensi_nearest_loop d (p :: rest) none =
            absensi_nearest_loop d rest none from by
              simp [absensi_nearest_loop, hlat, hlon],
          ih, List.forall_mem_cons]
        simp [hlon]
      | some plong =>
        rw [show absensi_nearest_loop d (p :: rest) none =
            absensi_nearest_loop d rest (some (d plat plong, p)) from by
              simp [absensi_nearest_loop, hlat, hlon]]
        constructor
        · intro h
          exact absurd h (absensi_loop_acc_some d rest (d plat plong) p)
        · intro h
          rcases h p (List.mem_cons_self _ _) with hc | hc
          · rw [hlat] at hc
            exact Option.noConfusion hc
          · rw [hlon] at hc
            exact Option.noConfusion hc

theorem absensi_loop_acc_spec (d : ℚ → ℚ → ℚ) (l : List Lokasi) :
    ∀ m0 q0 m q, absensi_nearest_loop d l (some (m0, q0)) = some (m, q) →
      (q = q0 ∧ m = m0 ∧
        (∀ r ∈ l, ∀ ra rb, r.latitude.parsed = some ra →
          r.longitude.parsed = some rb → m0 ≤ d ra rb)) ∨
      (∃ l1 l2 plat plong, l = l1 ++ q :: l2 ∧
        q.latitude.parsed = some plat ∧ q.longitude.parsed = some plong ∧
        m = d plat plong ∧ m < m0 ∧
        (∀ r ∈ l1, ∀ ra rb, r.latitude.parsed = some ra →
          r.longitude.parsed = some rb → m < d ra rb) ∧
        (∀ r ∈ l2, ∀ ra rb, r.latitude.parsed = some ra →
          r.longitude.parsed = some rb → m ≤ d ra rb)) := by
  induction l with
  | nil =>
    intro m0 q0 m q h
    simp only [absensi_nearest_loop, Option.some.injEq, Prod.mk.injEq] at h
    left
    exact ⟨h.2.symm, h.1.symm, fun r hr => absurd hr (List.not_mem_nil r)⟩
  | cons p rest ih =>
    intro m0 q0 m q h
    cases hlat : p.latitude.parsed with
    | none =>
      rw [show absensi_nearest_loop d (p :: rest) (some (m0, q0)) =
          absensi_nearest_loop d rest (some (m0, q0)) from by
            simp [absensi_nearest_loop, hlat]] at h
      rcases ih m0 q0 m q h with ⟨hq, hm, hall⟩ |
        ⟨l1, l2, plat, plong, hsplit, hqa, hqb, hm, hlt, h01, h02⟩
      · left
        refine ⟨hq, hm, ?_⟩
        intro r hr ra rb hra hrb
        rcases List.mem_cons.mp hr with rfl | hr2
        · rw [hlat] at hra
          exact Option.noConfusion hra
        · exact hall r hr2 ra rb hra hrb
      · right
        refine ⟨p :: l1, l2, plat, plong, ?_, hqa, hqb, hm, hlt, ?_, h02⟩
        · rw [List.cons_append, hsplit]
        · intro r hr ra rb hra hrb
          rcases List.mem_cons.mp hr with rfl | hr2
          · rw [hlat] at hra
            exact Option.noConfusion hra
          · exact h01 r hr2 ra rb hra hrb
    | some plat0 =>
      cases hlon : p.longitude.parsed with
      | none =>
        rw [show absensi_nearest_loop d (p :: rest) (some (m0, q0)) =
            absensi_nearest_loop d rest (some (m0, q0)) from by
              simp [absensi_nearest_loop, hlat, hlon]] at h
        rcases ih m0 q0 m q h with ⟨hq, hm, hall⟩ |
          ⟨l1, l2, plat, plong, hsplit, hqa, hqb, hm, hlt, h01, h02⟩
        · left
          refine ⟨hq, hm, ?_⟩
          intro r hr ra rb hra hrb
          rcases List.mem_cons.mp hr with rfl | hr2
          · rw [hlon] at hrb
            exact Option.noConfusion hrb
          · exact hall r hr2 ra rb hra hrb
        · right
          refine ⟨p :: l1, l2, plat, plong, ?_, hqa, hqb, hm, hlt, ?_, h02⟩
          · rw [List.cons_append, hsplit]
          · intro r hr ra rb hra hrb
            rcases List.mem_cons.mp hr with rfl | hr2
            · rw [hlon] at hrb
              exact Option.noConfusion hrb
            · exact h01 r hr2 ra rb hra hrb
      | some plong0 =>
        rw [show absensi_nearest_loop d (p :: rest) (some (m0, q0)) =
            (if d plat0 plong0 < m0 then
              absensi_nearest_loop d rest (some (d plat0 plong0, p))
            else absensi_nearest_loop d rest (some (m0, q0))) from by
              simp [absensi_nearest_loop, hlat, hlon]] at h
        by_cases hcmp : d plat0 plong0 < m0
        · rw [if_pos hcmp] at h
          rcases ih (d plat0 plong0) p m q h with ⟨hq, hm, hall⟩ |
            ⟨l1, l2, plat, plong, hsplit, hqa, hqb, hm, hlt, h01, h02⟩
          · right
            refine ⟨[], rest, plat0, plong0, ?_, ?_, ?_, hm, ?_, ?_, ?_⟩
            · rw [hq, List.nil_append]
            · rw [hq]
              exact hlat
            · rw [hq]
              exact hlon
            · rw [hm]
              exact hcmp
            · intro r hr
              exact absurd hr (List.not_mem_nil r)
            · intro r hr ra rb hra hrb
              have := hall r hr ra rb hra hrb
              rw [hm]
              exact this
          · right
            refine ⟨p :: l1, l2, plat, plong, ?_, hqa, hqb, hm, ?_, ?_, h02⟩
            · rw [List.cons_append, hsplit]
            · exact hlt.trans hcmp
            · intro r hr ra rb hra hrb
              rcases List.mem_cons.mp hr with rfl | hr2
              · rw [hlat] at hra
                cases hra
                rw [hlon] at hrb
                cases hrb
                exact hlt
              · exact h01 r hr2 ra rb hra hrb
        · rw [if_neg hcmp] at h
          rcases ih m0 q0 m q h with ⟨hq, hm, hall⟩ |
            ⟨l1, l2, plat, plong, hsplit, hqa, hqb, hm, hlt, h01, h02⟩
          · left
            refine ⟨hq, hm, ?_⟩
            intro r hr ra rb hra hrb
            rcases List.mem_cons.mp hr with rfl | hr2
            · rw [hlat] at hra
              cases hra
              rw [hlon] at hrb
              cases hrb
              exact not_lt.mp hcmp
            · exact hall r hr2 ra rb hra hrb
          · right
            refine ⟨p :: l1, l2, plat, plong, ?_, hqa, hqb, hm, hlt, ?_, h02⟩
            · rw [List.cons_append, hsplit]
            · intro r hr ra rb hra hrb
              rcases List.mem_cons.mp hr with rfl | hr2
              · rw [hlat] at hra
                cases hra
                rw [hlon] at hrb
                cases hrb
                exact hlt.trans_le (not_lt.mp hcmp)
              · exact h01 r hr2 ra rb hra hrb

theorem absensi_loop_spec (d : ℚ → ℚ → ℚ) (l : List Lokasi) :
    ∀ m q, absensi_nearest_loop d l none = some (m, q) →
      ∃ l1 l2 plat plong, l = l1 ++ q :: l2 ∧
        q.latitude.parsed = some plat ∧ q.longitude.parsed = some plong ∧
        m = d plat plong ∧
        (∀ r ∈ l1, ∀ ra rb, r.latitude.parsed = some ra →
          r.longitude.parsed = some rb → m < d ra rb) ∧
        (∀ r ∈ l2, ∀ ra rb, r.latitude.parsed = some ra →
          r.longitude.parsed = some rb → m ≤ d ra rb) := by
  induction l with
  | nil =>
    intro m q h
    simp [absensi_nearest_loop] at h
  | cons p rest ih =>
    intro m q h
    cases hlat : p.latitude.parsed with
    | none =>
      rw [show absensi_nearest_loop d (p :: rest) none =
          absensi_nearest_loop d rest none from by
            simp [absensi_nearest_loop, hlat]] at h
      obtain ⟨l1, l2, plat, plong, hsplit, hqa, hqb, hm, h01, h02⟩ := ih m q h
      refine ⟨p :: l1, l2, plat, plong, ?_, hqa, hqb, hm, ?_, h02⟩
      · rw [List.cons_append, hsplit]
      · intro r hr ra rb hra hrb
        rcases List.mem_cons.mp hr with rfl | hr2
        · rw [hlat] at hra
          exact Option.noConfusion hra
        · exact h01 r hr2 ra rb hra hrb
    | some plat0 =>
      cases hlon : p.longitude.parsed with
      | none =>
        rw [show absensi_nearest_loop d (p :: rest) none =
            absensi_nearest_loop d rest none from by
              simp [absensi_nearest_loop, hlat, hlon]] at h
        obtain ⟨l1, l2, plat, plong, hsplit, hqa, hqb, hm, h01, h02⟩ := ih m q h
        refine ⟨p :: l1, l2, plat, plong, ?_, hqa, hqb, hm, ?_, h02⟩
        · rw [List.cons_append, hsplit]
        · intro r hr ra rb hra hrb
          rcases List.mem_cons.mp hr with rfl | hr2
          · rw [hlon] at hrb
            exact Option.noConfusion hrb
          · exact h01 r hr2 ra rb hra hrb
      | some plong0 =>
        rw [show absensi_nearest_loop d (p :: rest) none =
            absensi_nearest_loop d rest (some (d plat0 plong0, p)) from by
              simp [absensi_nearest_loop, hlat, hlon]] at h
        rcases absensi_loop_acc_spec d rest (d plat0 plong0) p m q h with
          ⟨hq, hm, hall⟩ |
          ⟨l1, l2, plat, plong, hsplit, hqa, hqb, hm, hlt, h01, h02⟩
        · refine ⟨[], rest, plat0, plong0, ?_, ?_, ?_, hm, ?_, ?_⟩
          · rw [hq, List.nil_append]
          · rw [hq]
            exact hlat
          · rw [hq]
            exact hlon
          · intro r hr
            exact absurd hr (List.not_mem_nil r)
          · intro r hr ra rb hra hrb
            rw [hm]
            exact hall r hr ra rb hra hrb
        · refine ⟨p :: l1, l2, plat, plong, ?_, hqa, hqb, hm, ?_, h02⟩
          · rw [List.cons_append, hsplit]
          · intro r hr ra rb hra hrb
            rcases List.mem_cons.mp hr with rfl | hr2
            · rw [hlat] at hra
              cases hra
              rw [hlon] at hrb
              cases hrb
              exact hlt
            · exact h01 r hr2 ra rb hra hrb

/-- Claim C5: (i) if some "Posko Pengungsian" candidate carries truthy
coordinates the search is restricted to those, otherwise every
coordinate-bearing candidate is searched; (ii) when no candidate has
parsable coordinates nothing is selected and the stored posko code is
empty; (iii) any selected facility is a searched candidate with parsable
coordinates whose distance is minimal, every earlier searched candidate
with parsable coordinates lying strictly farther (first wins on ties)
and every later one at least as far. The distance oracle `d` stands for
the haversine evaluation against the submitted coordinates. -/
theorem C5_nearest_facility (d : ℚ → ℚ → ℚ) (data : List Lokasi) :
    (absensi_candidates data =
      if (data.filter
          (fun l => l.jenis_lokasi == some "Posko Pengungsian"
            && (l.latitude.truthy && l.longitude.truthy))).isEmpty then
        data.filter (fun l => l.latitude.truthy && l.longitude.truthy)
      else
        data.filter
          (fun l => l.jenis_lokasi == some "Posko Pengungsian"
            && (l.latitude.truthy && l.longitude.truthy))) ∧
    ((∀ p ∈ data, p.latitude.parsed = none ∨ p.longitude.parsed = none) →
      absensi_nearest_loop d (absensi_candidates data) none = none ∧
      submit_absensi_posko d data = "") ∧
    (∀ m q,
      absensi_nearest_loop d (absensi_candidates data) none = some (m, q) →
      ∃ l1 l2 plat plong, absensi_candidates data = l1 ++ q :: l2 ∧
        q.latitude.parsed = some plat ∧ q.longitude.parsed = some plong ∧
        m = d plat plong ∧
        (∀ r ∈ l1, ∀ ra rb, r.latitude.parsed = some ra →
          r.longitude.parsed = some rb → m < d ra rb) ∧
        (∀ r ∈ l2, ∀ ra rb, r.latitude.parsed = some ra →
          r.longitude.parsed = some rb → m ≤ d ra rb)) := by
  refine ⟨rfl, ?_, ?_⟩
  · intro hall
    have hsub : ∀ p ∈ absensi_candidates data, p ∈ data := by
      intro p hp
      unfold absensi_candidates at hp
      split at hp <;> exact (List.mem_filter.mp hp).1
    have hnone : absensi_nearest_loop d (absensi_candidates data) none = none :=
      (absensi_loop_none_iff d (absensi_candidates data)).mpr
        (fun p hp => hall p (hsub p hp))
    refine ⟨hnone, ?_⟩
    unfold submit_absensi_posko
    rw [hnone]
  · intro m q h
    exact absensi_loop_spec d (absensi_candidates data) m q h

/-- Witness for Claim C5: a single candidate without coordinates yields
no selection and an empty posko code. -/
theorem C5_nearest_facility_witness :
    absensi_nearest_loop (fun a b => a + b)
      (absensi_candidates [⟨none, .missing, .missing, none, none⟩]) none =
        none ∧
    submit_absensi_posko (fun a b => a + b)
      [⟨none, .missing, .missing, none, none⟩] = "" :=
  (C5_nearest_facility (fun a b => a + b)
      [⟨none, .missing, .missing, none, none⟩]).2.1
    (by
      intro p hp
      fin_cases hp
      left
      rfl)

/-! ## Region classification (`cek_wilayah_geojson`,
app_postgres.py lines 1461-1508) -/

/-- One vertex entry of a GeoJSON ring: `ok` a well-formed coordinate
pair, `bad` a malformed entry on which the tuple unpacking inside
`point_in_polygon` raises. -/
inductive Vertex where
  | ok (x y : ℚ)
  | bad
deriving DecidableEq

/-- A feature geometry. `coordinates` is `none` when the key is missing
(the code then substitutes the default `[[]]` for Polygon and `[]` for
MultiPolygon); `other` covers a missing or unrecognized geometry type
(no branch taken, the feature never matches). -/
inductive Geom where
  | polygon (coordinates : Option (List (List Vertex)))
  | multiPolygon (coordinates : Option (List (List (List Vertex))))
  | other
deriving DecidableEq

/-- A GeoJSON feature: its geometry and the three name properties the
code consults. `kabkotaUpper` is the "KABKOTA" property. -/
structure Feature where
  geometry : Geom
  kabkota : Option String
  kabkotaUpper : Option String
  namobj : Option String
deriving DecidableEq

/-- Name resolution (lines 1479-1484): `props.get("kabkota") or
props.get("KABKOTA") or props.get("NAMOBJ") or "Wilayah Tak Bernama"`. -/
def featureName (f : Feature) : String :=
  pyOrS f.kabkota (pyOrS f.kabkotaUpper (pyOrS f.namobj "Wilayah Tak Bernama"))

/-- Convert a raw ring to coordinate pairs; `none` as soon as the ring
holds a malformed vertex. -/
def ringToPts : List Vertex → Option (List (ℚ × ℚ))
  | [] => some []
  | .ok x y :: rest => (ringToPts rest).map (fun l => (x, y) :: l)
  | .bad :: _ => none

/-- Run `point_in_polygon` over one raw ring under the guard
`if poly_coords and point_in_polygon(...)`: an empty ring is skipped,
a ring with a malformed vertex raises. -/
def testRing (pt : ℚ × ℚ) (ring : List Vertex) : Except Unit Bool :=
  if ring.isEmpty then .ok false
  else
    match ringToPts ring with
    | none => .error ()
    | some pts =>
      match point_in_polygon pt pts with
      | some b => .ok b
      | none => .error ()

/-- The MultiPolygon scan (lines 1494-1499): for each `poly` test
`poly[0] if poly else []`, stopping at the first hit (`break`). -/
def cekMulti (pt : ℚ × ℚ) : List (List (List Vertex)) → Except Unit Bool
  | [] => .ok false
  | poly :: restPolys => do
    let ring := match poly.head? with
      | some r => r
      | none => []
    let found ← testRing pt ring
    if found then .ok true else cekMulti pt restPolys

/-- Geometry dispatch for one feature (lines 1486-1499). For a Polygon
the code reads `geometry.get("coordinates", [[]])[0]`; on a present but
empty coordinates list that indexing raises. -/
def cekFeature (pt : ℚ × ℚ) (f : Feature) : Except Unit Bool :=
  match f.geometry with
  | .polygon coords =>
    match (coords.getD [[]]).head? with
    | none => .error ()
    | some ring => testRing pt ring
  | .multiPolygon coords => cekMulti pt (coords.getD [])
  | .other => .ok false

/-- The feature loop (lines 1474-1504): first containing feature wins,
otherwise the outside sentinel. -/
def cekLoop (pt : ℚ × ℚ) : List Feature → Except Unit String
  | [] => .ok "Luar Wilayah Sumut"
  | f :: rest => do
    let found ← cekFeature pt f
    if found then .ok (featureName f) else cekLoop pt rest

/-- Embeds `cek_wilayah_geojson` (lines 1461-1508). `dataset` is the
parsed GeoJSON feature list; `none` models an unreadable or unparsable
file. `user_lat` / `user_lon` are `none` when `float()` raises on them
(the code converts `user_lon` first). Any exception inside the `try`
block becomes the sentinel "Gagal Deteksi Wilayah". -/
def cek_wilayah_geojson (user_lat user_lon : Option ℚ)
    (dataset : Option (List Feature)) : String :=
  let r : Except Unit String := do
    let fs ← match dataset with
      | none => Except.error ()
      | some fs => Except.ok fs
    let lon ← match user_lon with
      | none => Except.error ()
      | some q => Except.ok q
    let lat ← match user_lat with
      | none => Except.error ()
      | some q => Except.ok q
    cekLoop (lon, lat) fs
  match r with
  | .ok s => s
  | .error _ => "Gagal Deteksi Wilayah"

/-- Spec-side containment of a point in one raw ring (defined value for
clean rings; false on corrupt data, which the scan instead reports). -/
def ringContains (pt : ℚ × ℚ) (ring : List Vertex) : Bool :=
  match ringToPts ring with
  | some pts => (point_in_polygon pt pts).getD false
  | none => false

/-- Spec-side containment test for a feature, from the claim: the
polygon ring, or any polygon of the multi-polygon, contains the point
(outer rings only, as the code reads index 0). -/
def featureContains (pt : ℚ × ℚ) (f : Feature) : Bool :=
  match f.geometry with
  | .polygon coords =>
    match (coords.getD [[]]).head? with
    | none => false
    | some ring => !ring.isEmpty && ringContains pt ring
  | .multiPolygon coords =>
    (coords.getD []).any (fun poly =>
      match poly.head? with
      | some r => !r.isEmpty && ringContains pt r
      | none => false)
  | .other => false

/-- A feature is structurally clean at scan time: every ring its scan
can touch exists and holds only well-formed vertices. -/
def Feature.scanClean (f : Feature) : Bool :=
  match f.geometry with
  | .polygon coords =>
    match (coords.getD [[]]).head? with
    | none => false
    | some ring => ring.all (fun v => v != Vertex.bad)
  | .multiPolygon coords =>
    (coords.getD []).all (fun poly =>
      match poly.head? with
      | some r => r.all (fun v => v != Vertex.bad)
      | none => true)
  | .other => true

/-! ### Lemmas for the region classifier -/

theorem ringToPts_of_clean (ring : List Vertex)
    (h : ring.all (fun v => v != Vertex.bad) = true) :
    ∃ pts, ringToPts ring = some pts ∧ pts.length = ring.length := by
  induction ring with
  | nil => exact ⟨[], rfl, rfl⟩
  | cons v rest ih =>
    simp only [List.all_cons, Bool.and_eq_true] at h
    obtain ⟨pts, hp, hl⟩ := ih h.2
    cases v with
    | ok x y =>
      refine ⟨(x, y) :: pts, ?_, ?_⟩
      · simp [ringToPts, hp]
      · simp [hl]
    | bad => simp at h

theorem testRing_of_clean (pt : ℚ × ℚ) (ring : List Vertex)
    (h : ring.all (fun v => v != Vertex.bad) = true) :
    testRing pt ring = .ok (!ring.isEmpty && ringContains pt ring) := by
  cases ring with
  | nil => rfl
  | cons v rest =>
    obtain ⟨pts, hp, hl⟩ := ringToPts_of_clean (v :: rest) h
    cases pts with
    | nil => simp at hl
    | cons p0 ptl =>
      simp only [testRing, List.isEmpty_cons, ringContains, hp,
        Bool.false_eq_true, if_false, Bool.not_false, Bool.true_and]
      rfl

theorem cekMulti_of_clean (pt : ℚ × ℚ) (polys : List (List (List Vertex)))
    (h : polys.all (fun poly =>
      match poly.head? with
      | some r => r.all (fun v => v != Vertex.bad)
      | none => true) = true) :
    cekMulti pt polys = .ok (polys.any (fun poly =>
      match poly.head? with
      | some r => !r.isEmpty && ringContains pt r
      | none => false)) := by
  induction polys with
  | nil => rfl
  | cons poly rest ih =>
    simp only [List.all_cons, Bool.and_eq_true] at h
    have hrest := ih h.2
    cases hpoly : poly.head? with
    | none =>
      have hpnil : poly = [] := List.head?_eq_none_iff.mp hpoly
      subst hpnil
      simp [cekMulti, Bind.bind, Except.bind, testRing, hrest]
    | some r =>
      have hclean : r.all (fun v => v != Vertex.bad) = true := by
        have := h.1
        rw [hpoly] at this
        exact this
      have htr := testRing_of_clean pt r hclean
      cases hb : (!r.isEmpty && ringContains pt r) with
      | false =>
        rw [hb] at htr
        simp [cekMulti, Bind.bind, Except.bind, hpoly, htr, hrest, hb]
      | true =>
        rw [hb] at htr
        simp [cekMulti, Bind.bind, Except.bind, hpoly, htr, hb]

theorem cekFeature_of_clean (pt : ℚ × ℚ) (f : Feature)
    (h : f.scanClean = true) :
    cekFeature pt f = .ok (featureContains pt f) := by
  cases hg : f.geometry with
  | polygon coords =>
    unfold Feature.scanClean at h
    rw [hg] at h
    dsimp only at h
    cases hh : (coords.getD [[]]).head? with
    | none =>
      rw [hh] at h
      exact absurd h Bool.false_ne_true
    | some ring =>
      rw [hh] at h
      simp only [cekFeature, featureContains, hg, hh]
      exact testRing_of_clean pt ring h
  | multiPolygon coords =>
    unfold Feature.scanClean at h
    rw [hg] at h
    dsimp only at h
    simp only [cekFeature, featureContains, hg]
    exact cekMulti_of_clean pt (coords.getD []) h
  | other =>
    simp only [cekFeature, featureContains, hg]

theorem cekLoop_cons_false (pt : ℚ × ℚ) (f : Feature) (rest : List Feature)
    (h : cekFeature pt f = .ok false) :
    cekLoop pt (f :: rest) = cekLoop pt rest := by
  simp [cekLoop, Bind.bind, Except.bind, h]

theorem cekLoop_cons_true (pt : ℚ × ℚ) (f : Feature) (rest : List Feature)
    (h : cekFeature pt f = .ok true) :
    cekLoop pt (f :: rest) = .ok (featureName f) := by
  simp [cekLoop, Bind.bind, Except.bind, h]

theorem cekLoop_cons_error (pt : ℚ × ℚ) (f : Feature) (rest : List Feature)
    (h : cekFeature pt f = .error ()) :
    cekLoop pt (f :: rest) = .error () := by
  simp [cekLoop, Bind.bind, Except.bind, h]

theorem cekLoop_append_false (pt : ℚ × ℚ) (l1 : List Feature)
    (rest : List Feature) (h : ∀ g ∈ l1, cekFeature pt g = .ok false) :
    cekLoop pt (l1 ++ rest) = cekLoop pt rest := by
  induction l1 with
  | nil => rfl
  | cons g t ih =>
    rw [List.cons_append,
      cekLoop_cons_false pt g (t ++ rest) (h g (List.mem_cons_self _ _))]
    exact ih (fun g2 hg2 => h g2 (List.mem_cons_of_mem _ hg2))

theorem cekLoop_all_false (pt : ℚ × ℚ) (fs : List Feature)
    (h : ∀ g ∈ fs, cekFeature pt g = .ok false) :
    cekLoop pt fs = .ok "Luar Wilayah Sumut" := by
  have := cekLoop_append_false pt fs [] h
  rw [List.append_nil] at this
  rw [this]
  rfl

/-- Claim C6 counterexample: a feature whose boundary data is missing
(no "coordinates" key) is silently skipped, so the classifier reports
the outside sentinel, not the detection-failure sentinel the claim
requires for missing boundary data. -/
theorem C6_counterexample :
    cek_wilayah_geojson (some 0) (some 0)
      (some [⟨Geom.polygon none, some "Karo", none, none⟩]) =
      "Luar Wilayah Sumut" ∧
    "Luar Wilayah Sumut" ≠ "Gagal Deteksi Wilayah" :=
  ⟨rfl, by decide⟩

/-- Claim C6 (amended): an unreadable or unparsable region dataset, or
an unparsable coordinate, yields "Gagal Deteksi Wilayah" instead of an
exception; the first feature in dataset order whose scan reports
containment wins and its resolved name is returned; if every feature
scan reports no containment the classifier returns "Luar Wilayah
Sumut"; a corrupt boundary reached by the scan (a malformed vertex in a
scanned ring, or a Polygon whose ring list is present but empty) yields
"Gagal Deteksi Wilayah", while a feature with missing boundary data is
merely skipped; and on a structurally clean feature the scan reports
exactly the spec-side containment test (the polygon outer ring, or any
outer ring of the multi-polygon). -/
theorem C6_region_classification (lat lon : ℚ) (olat olon : Option ℚ)
    (fs l1 l2 : List Feature) (f : Feature) :
    cek_wilayah_geojson olat olon none = "Gagal Deteksi Wilayah" ∧
    cek_wilayah_geojson olat none (some fs) = "Gagal Deteksi Wilayah" ∧
    cek_wilayah_geojson none (some lon) (some fs) = "Gagal Deteksi Wilayah" ∧
    (fs = l1 ++ f :: l2 →
      (∀ g ∈ l1, cekFeature (lon, lat) g = .ok false) →
      cekFeature (lon, lat) f = .ok true →
      cek_wilayah_geojson (some lat) (some lon) (some fs) = featureName f) ∧
    ((∀ g ∈ fs, cekFeature (lon, lat) g = .ok false) →
      cek_wilayah_geojson (some lat) (some lon) (some fs) =
        "Luar Wilayah Sumut") ∧
    (fs = l1 ++ f :: l2 →
      (∀ g ∈ l1, cekFeature (lon, lat) g = .ok false) →
      cekFeature (lon, lat) f = .error () →
      cek_wilayah_geojson (some lat) (some lon) (some fs) =
        "Gagal Deteksi Wilayah") ∧
    (f.scanClean = true →
      cekFeature (lon, lat) f = .ok (featureContains (lon, lat) f)) := by
  have hrun : ∀ fs2 : List Feature,
      cek_wilayah_geojson (some lat) (some lon) (some fs2) =
        match cekLoop (lon, lat) fs2 with
        | .ok s => s
        | .error _ => "Gagal Deteksi Wilayah" := fun fs2 => rfl
  refine ⟨rfl, rfl, rfl, ?_, ?_, ?_, ?_⟩
  · intro hsplit h1 hf
    subst hsplit
    rw [hrun, cekLoop_append_false (lon, lat) l1 (f :: l2) h1,
      cekLoop_cons_true (lon, lat) f l2 hf]
  · intro hall
    rw [hrun, cekLoop_all_false (lon, lat) fs hall]
  · intro hsplit h1 hf
    subst hsplit
    rw [hrun, cekLoop_append_false (lon, lat) l1 (f :: l2) h1,
      cekLoop_cons_error (lon, lat) f l2 hf]
  · intro hclean
    exact cekFeature_of_clean (lon, lat) f hclean

/-- Witness for Claim C6: on an empty region dataset every feature scan
vacuously reports no containment and the classifier returns the outside
sentinel. -/
theorem C6_region_classification_witness :
    cek_wilayah_geojson (some 0) (some 0) (some []) = "Luar Wilayah Sumut" :=
  (C6_region_classification 0 0 none none [] [] []
      ⟨Geom.other, none, none, none⟩).2.2.2.2.1
    (fun g hg => absurd hg (List.not_mem_nil g))

/-! ## Haversine distance (`haversine_distance`,
app_postgres.py lines 1511-1522), over a four-class float model -/

/-- A Python float value: a finite real, one of the two infinities, or
NaN. Finite arithmetic is modelled exactly (IEEE rounding and overflow
are out of scope); the special values follow Python/libm behavior for
every operation the function performs. -/
inductive F where
  | fin (x : ℝ)
  | inf
  | ninf
  | nan

/-- `float(...)` on the raw argument: `none` models a value float()
raises on; note that `float("nan")` and `float("inf")` succeed and are
`some F.nan` / `some F.inf`. -/
def floatConv : Option F → Except Unit F
  | none => .error ()
  | some f => .ok f

/-- `math.radians`: multiplication by the positive constant pi/180
(never raises, preserves the value class). -/
noncomputable def radiansF : F → F
  | .fin x => .fin (x * (Real.pi / 180))
  | .inf => .inf
  | .ninf => .ninf
  | .nan => .nan

/-- Float subtraction: finite exact, `inf - inf` style cancellations
give NaN, NaN propagates. -/
noncomputable def fsub : F → F → F
  | .nan, _ => .nan
  | _, .nan => .nan
  | .fin x, .fin y => .fin (x - y)
  | .fin _, .inf => .ninf
  | .fin _, .ninf => .inf
  | .inf, .fin _ => .inf
  | .ninf, .fin _ => .ninf
  | .inf, .inf => .nan
  | .inf, .ninf => .inf
  | .ninf, .inf => .ninf
  | .ninf, .ninf => .nan

/-- Float addition (only finite/NaN values reach it here). -/
noncomputable def fadd : F → F → F
  | .nan, _ => .nan
  | _, .nan => .nan
  | .fin x, .fin y => .fin (x + y)
  | .fin _, .inf => .inf
  | .fin _, .ninf => .ninf
  | .inf, .fin _ => .inf
  | .ninf, .fin _ => .ninf
  | .inf, .inf => .inf
  | .inf, .ninf => .nan
  | .ninf, .inf => .nan
  | .ninf, .ninf => .ninf

/-- Float multiplication; the `0 * inf = NaN` sign table is included for
totality although only finite and NaN factors occur in this function. -/
noncomputable def fmul : F → F → F
  | .nan, _ => .nan
  | _, .nan => .nan
  | .fin x, .fin y => .fin (x * y)
  | .inf, .inf => .inf
  | .inf, .ninf => .ninf
  | .ninf, .inf => .ninf
  | .ninf, .ninf => .inf
  | .fin x, .inf => if x = 0 then .nan else if 0 < x then .inf else .ninf
  | .fin x, .ninf => if x = 0 then .nan else if 0 < x then .ninf else .inf
  | .inf, .fin x => if x = 0 then .nan else if 0 < x then .inf else .ninf
  | .ninf, .fin x => if x = 0 then .nan else if 0 < x then .ninf else .inf

/-- Halving (`/ 2`): never raises, preserves the value class. -/
noncomputable def fhalf : F → F
  | .fin x => .fin (x / 2)
  | .inf => .inf
  | .ninf => .ninf
  | .nan => .nan

/-- `math.sin`: raises ValueError on an infinity, propagates NaN. -/
noncomputable def sinF : F → Except Unit F
  | .fin x => .ok (.fin (Real.sin x))
  | .nan => .ok .nan
  | .inf => .error ()
  | .ninf => .error ()

/-- `math.cos`: raises ValueError on an infinity, propagates NaN. -/
noncomputable def cosF : F → Except Unit F
  | .fin x => .ok (.fin (Real.cos x))
  | .nan => .ok .nan
  | .inf => .error ()
  | .ninf => .error ()

/-- `math.sqrt`: raises ValueError on a negative argument, propagates
NaN, maps +inf to +inf. -/
noncomputable def sqrtF : F → Except Unit F
  | .fin x => if x < 0 then .error () else .ok (.fin (Real.sqrt x))
  | .nan => .ok .nan
  | .inf => .ok .inf
  | .ninf => .error ()

/-- Real-valued two-argument arctangent (the libm atan2 on finite
arguments, positive-x case used by this function). -/
noncomputable def atan2R (y x : ℝ) : ℝ :=
  if 0 < x then Real.arctan (y / x)
  else if x < 0 then
    (if 0 ≤ y then Real.arctan (y / x) + Real.pi
     else Real.arctan (y / x) - Real.pi)
  else (if 0 < y then Real.pi / 2 else if y < 0 then -(Real.pi / 2) else 0)

/-- `math.atan2`: total (never raises), NaN propagates, infinities give
the usual quadrant constants (those rows are unreachable here because
both arguments come from `sqrtF` of values in `[0, 1]` or NaN). -/
noncomputable def atan2F : F → F → F
  | .nan, _ => .nan
  | _, .nan => .nan
  | .fin y, .fin x => .fin (atan2R y x)
  | .inf, .inf => .fin (Real.pi / 4)
  | .inf, .ninf => .fin (3 * Real.pi / 4)
  | .ninf, .inf => .fin (-(Real.pi / 4))
  | .ninf, .ninf => .fin (-(3 * Real.pi / 4))
  | .inf, .fin _ => .fin (Real.pi / 2)
  | .ninf, .fin _ => .fin (-(Real.pi / 2))
  | .fin _, .inf => .fin 0
  | .fin y, .ninf => if 0 ≤ y then .fin Real.pi else .fin (-Real.pi)

/-- The body of the `try` block of `haversine_distance`
(app_postgres.py lines 1514-1520), with Python evaluation order:
convert the four inputs, take radians, form `dlat`/`dlon`, then evaluate
`a = sin(dlat/2)**2 + cos(lat1)*cos(lat2)*sin(dlon/2)**2` left to right,
then `c = 2 * atan2(sqrt(a), sqrt(1 - a))` and `6371.0 * c`. -/
noncomputable def haversineExc (lat1 lon1 lat2 lon2 : Option F) :
    Except Unit F := do
  let a1 ← floatConv lat1
  let b1 ← floatConv lon1
  let a2 ← floatConv lat2
  let b2 ← floatConv lon2
  let rlat1 := radiansF a1
  let rlon1 := radiansF b1
  let rlat2 := radiansF a2
  let rlon2 := radiansF b2
  let dlat := fsub rlat2 rlat1
  let dlon := fsub rlon2 rlon1
  let s1 ← sinF (fhalf dlat)
  let t1 := fmul s1 s1
  let c1 ← cosF rlat1
  let c2 ← cosF rlat2
  let s2 ← sinF (fhalf dlon)
  let a := fadd t1 (fmul (fmul c1 c2) (fmul s2 s2))
  let sa ← sqrtF a
  let sb ← sqrtF (fsub (F.fin 1) a)
  let c := fmul (F.fin 2) (atan2F sa sb)
  pure (fmul (F.fin 6371) c)

/-- Embeds `haversine_distance` (app_postgres.py lines 1511-1522): the
`try` body with every exception caught and turned into `float("inf")`.
Totality of this definition is the no-raise guarantee. -/
noncomputable def haversine_distance (lat1 lon1 lat2 lon2 : Option F) : F :=
  match haversineExc lat1 lon1 lat2 lon2 with
  | .ok v => v
  | .error _ => F.inf

/-- Spec-side: the great-circle distance in kilometers between two
points given in decimal degrees, Earth radius 6371.0 km, in the
atan2 form of the haversine formula. -/
noncomputable def greatCircleKm (lat1 lon1 lat2 lon2 : ℝ) : ℝ :=
  let rlat1 := lat1 * (Real.pi / 180)
  let rlon1 := lon1 * (Real.pi / 180)
  let rlat2 := lat2 * (Real.pi / 180)
  let rlon2 := lon2 * (Real.pi / 180)
  let dlat := rlat2 - rlat1
  let dlon := rlon2 - rlon1
  let a := Real.sin (dlat / 2) * Real.sin (dlat / 2) +
    Real.cos rlat1 * Real.cos rlat2 *
      (Real.sin (dlon / 2) * Real.sin (dlon / 2))
  6371 * (2 * atan2R (Real.sqrt a) (Real.sqrt (1 - a)))

/-- The haversine intermediate `a` always lies in `[0, 1]` for finite
inputs, so neither `sqrt(a)` nor `sqrt(1 - a)` can raise. -/
theorem hav_a_bounds (p q v : ℝ) :
    0 ≤ Real.sin ((q - p) / 2) * Real.sin ((q - p) / 2) +
      Real.cos p * Real.cos q * (Real.sin v * Real.sin v) ∧
    Real.sin ((q - p) / 2) * Real.sin ((q - p) / 2) +
      Real.cos p * Real.cos q * (Real.sin v * Real.sin v) ≤ 1 := by
  have hs2 : Real.sin ((q - p) / 2) * Real.sin ((q - p) / 2) =
      1 / 2 - Real.cos (q - p) / 2 := by
    have h := Real.sin_sq_eq_half_sub ((q - p) / 2)
    rw [pow_two] at h
    rw [h]
    have h2 : 2 * ((q - p) / 2) = q - p := by ring
    rw [h2]
  have hc : Real.cos (q - p) =
      Real.cos q * Real.cos p + Real.sin q * Real.sin p := Real.cos_sub q p
  have hp1 := Real.sin_sq_add_cos_sq p
  have hp2 := Real.sin_sq_add_cos_sq q
  have ht1 : Real.sin v * Real.sin v ≤ 1 := by
    nlinarith [Real.sin_sq_add_cos_sq v, sq_nonneg (Real.cos v)]
  have ht0 : 0 ≤ Real.sin v * Real.sin v := mul_self_nonneg _
  rw [hs2, hc]
  set C1 := Real.cos p with hC1
  set C2 := Real.cos q with hC2
  set S1 := Real.sin p with hS1
  set S2 := Real.sin q with hS2
  set T := Real.sin v * Real.sin v with hT
  constructor
  · nlinarith [mul_nonneg (sub_nonneg.mpr ht1)
        (show (0:ℝ) ≤ 2 - 2 * (C1 * C2) - 2 * (S1 * S2) by
          nlinarith [sq_nonneg (C1 - C2), sq_nonneg (S1 - S2)]),
      mul_nonneg ht0
        (show (0:ℝ) ≤ 2 + 2 * (C1 * C2) - 2 * (S1 * S2) by
          nlinarith [sq_nonneg (C1 + C2), sq_nonneg (S1 - S2)])]
  · nlinarith [mul_nonneg (sub_nonneg.mpr ht1)
        (show (0:ℝ) ≤ 2 + 2 * (C1 * C2) + 2 * (S1 * S2) by
          nlinarith [sq_nonneg (C1 + C2), sq_nonneg (S1 + S2)]),
      mul_nonneg ht0
        (show (0:ℝ) ≤ 2 - 2 * (C1 * C2) + 2 * (S1 * S2) by
          nlinarith [sq_nonneg (C1 - C2), sq_nonneg (S1 + S2)])]

theorem haversine_finite (x1 y1 x2 y2 : ℝ) :
    haversine_distance (some (F.fin x1)) (some (F.fin y1)) (some (F.fin x2))
      (some (F.fin y2)) = F.fin (greatCircleKm x1 y1 x2 y2) := by
  have hb := hav_a_bounds (x1 * (Real.pi / 180)) (x2 * (Real.pi / 180))
    ((y2 * (Real.pi / 180) - y1 * (Real.pi / 180)) / 2)
  unfold haversine_distance haversineExc
  simp only [floatConv, radiansF, fsub, fhalf, sinF, cosF, fmul, fadd,
    sqrtF, Bind.bind, Except.bind, pure]
  rw [if_neg (not_lt.mpr hb.1)]
  rw [if_neg (not_lt.mpr (sub_nonneg.mpr hb.2))]
  rfl

/-- Claim C9 counterexample: a NaN latitude parses fine and raises
nowhere, so it propagates to a NaN result - not the +infinity the claim
asserts for every non-finite input. -/
theorem C9_counterexample :
    haversine_distance (some F.nan) (some (F.fin 0)) (some (F.fin 0))
      (some (F.fin 0)) = F.nan ∧ F.nan ≠ F.inf :=
  ⟨rfl, fun h => F.noConfusion h⟩

/-- Claim C9 (amended): the function is total (every exception in the
try block is caught); an unparsable input in any of the four positions
yields +infinity; four finite inputs yield the great-circle haversine
distance with Earth radius 6371.0 km (and in particular no exception
escapes the square roots, since the haversine intermediate stays in
[0,1]); a NaN input propagates to a NaN result; an infinite input makes
a trig call raise and the caught exception yields +infinity. -/
theorem C9_haversine (lat1 lon1 lat2 lon2 : Option F) (x1 y1 x2 y2 : ℝ) :
    (lat1 = none → haversine_distance lat1 lon1 lat2 lon2 = F.inf) ∧
    (lon1 = none → haversine_distance lat1 lon1 lat2 lon2 = F.inf) ∧
    (lat2 = none → haversine_distance lat1 lon1 lat2 lon2 = F.inf) ∧
    (lon2 = none → haversine_distance lat1 lon1 lat2 lon2 = F.inf) ∧
    (haversine_distance (some (F.fin x1)) (some (F.fin y1)) (some (F.fin x2))
      (some (F.fin y2)) = F.fin (greatCircleKm x1 y1 x2 y2)) ∧
    (haversine_distance (some F.nan) (some (F.fin y1)) (some (F.fin x2))
      (some (F.fin y2)) = F.nan) ∧
    (haversine_distance (some F.inf) (some (F.fin y1)) (some (F.fin x2))
      (some (F.fin y2)) = F.inf) := by
  refine ⟨?_, ?_, ?_, ?_, haversine_finite x1 y1 x2 y2, rfl, rfl⟩
  · intro h
    subst h
    rfl
  · intro h
    subst h
    cases lat1 with
    | none => rfl
    | some f => rfl
  · intro h
    subst h
    cases lat1 <;> cases lon1 <;> rfl
  · intro h
    subst h
    cases lat1 <;> cases lon1 <;> cases lat2 <;> rfl

/-- Witness for Claim C9: an unparsable first coordinate yields
+infinity. -/
theorem C9_haversine_witness :
    haversine_distance none (some (F.fin 0)) (some (F.fin 0))
      (some (F.fin 0)) = F.inf :=
  (C9_haversine none (some (F.fin 0)) (some (F.fin 0)) (some (F.fin 0))
    0 0 0 0).1 rfl

end USUPeduli
